import Mathlib

/-!
Verification of the concurrency-primitives teaching library (bounded
producer/consumer channel and readers/writers shared record).

The C sources are embedded shallowly:

* pure functions (`append`, `take`) become Lean functions on an explicit
  channel state;
* each concurrent program becomes a labelled transition system: a state
  records the shared variables and every thread's program counter and
  locals, and an inductive `Step` relation has one constructor per atomic
  action of the source.  Statements that execute while a thread holds the
  exclusion primitive and that touch only data guarded by that primitive
  are merged into a single atomic action (the exclusion makes the merge
  behaviour-preserving); every acquisition/release of a primitive is its
  own action.
* ghost fields (`enqLog`, `deqLog`, observation logs, per-thread
  completion counters) record histories; they never influence enabledness.
-/

/-- Compile-time constant `BUFFER_SIZE` (producerConsumerMonitor.c line 11,
producerConsumerSemaphore.c line 11). -/
def BUFFER_SIZE : Nat := 10

/-- Compile-time constant `PRODUCTION_LIMIT` (producerConsumerMonitor.c line 17). -/
def PRODUCTION_LIMIT : Nat := 25

/-- Compile-time constant `CONSUMPTION_LIMIT` (producerConsumerMonitor.c line 23). -/
def CONSUMPTION_LIMIT : Nat := 35

/-- Compile-time constant `NUM_PRODUCERS` (producerConsumerMonitor.c line 34). -/
def NUM_PRODUCERS : Nat := 3

/-- Compile-time constant `NUM_CONSUMERS` (producerConsumerMonitor.c line 35). -/
def NUM_CONSUMERS : Nat := 2

/-- Compile-time constant `WRITE_ACTIONS` (readersWritersMutex.c line 10). -/
def WRITE_ACTIONS : Nat := 20

/-- Compile-time constant `NUM_READERS` (readersWritersMutex.c line 19). -/
def NUM_READERS : Nat := 3

/-- Compile-time constant `NUM_WRITERS` (readersWritersMutex.c line 20). -/
def NUM_WRITERS : Nat := 3

/-- The circular queue shared by producers and consumers:
`int buffer[BUFFER_SIZE]; int insertAt; int removeAt;`
(producerConsumerMonitor.c lines 112-114, producerConsumerSemaphore.c
lines 109-111).  The C array is modelled as a total function from slot
index to value; only indices `< BUFFER_SIZE` are ever used. -/
structure Chan where
  buffer : Nat → Int
  insertAt : Nat
  removeAt : Nat

/-- `append` (producerConsumerMonitor.c lines 124-127, identical in
producerConsumerSemaphore.c lines 121-124):
`buffer[insertAt] = toAdd; insertAt = (insertAt + 1) % BUFFER_SIZE;`. -/
def Chan.append (toAdd : Int) (ch : Chan) : Chan :=
  { ch with
    buffer := Function.update ch.buffer ch.insertAt toAdd
    insertAt := (ch.insertAt + 1) % BUFFER_SIZE }

/-- `take` (producerConsumerMonitor.c lines 140-144, identical in
producerConsumerSemaphore.c lines 137-141):
`int result = buffer[removeAt]; removeAt = (removeAt + 1) % BUFFER_SIZE;
return result;`.  The slot contents are not modified. -/
def Chan.take (ch : Chan) : Int × Chan :=
  (ch.buffer ch.removeAt, { ch with removeAt := (ch.removeAt + 1) % BUFFER_SIZE })

/-- The zero-filled channel: C global arrays and ints start at 0. -/
def Chan.init : Chan := ⟨fun _ => 0, 0, 0⟩

namespace Monitor

/-- Global state of producerConsumerMonitor.c plus ghost history.
`globalProductionCounter` is the shared counter of line 63.  `enqLog`
records `(producer index, value)` for every `append` in order; `deqLog`
records `(consumer index, value)` for every `take` in order.  `pDone i` /
`cDone i` count completed loop iterations of producer/consumer thread
`i` (indices 0,1,2 correspond to thread IDs 1,2,3). -/
structure St where
  chan : Chan
  globalProductionCounter : Int
  enqLog : List (Nat × Int)
  deqLog : List (Nat × Int)
  pDone0 : Nat
  pDone1 : Nat
  pDone2 : Nat
  cDone0 : Nat
  cDone1 : Nat

/-- Completed iterations of producer `p`. -/
def St.pDone (s : St) : Nat → Nat
  | 0 => s.pDone0
  | 1 => s.pDone1
  | 2 => s.pDone2
  | _ => 0

/-- Completed iterations of consumer `c`. -/
def St.cDone (s : St) : Nat → Nat
  | 0 => s.cDone0
  | 1 => s.cDone1
  | _ => 0

/-- Record one more completed iteration for producer `p`. -/
def bumpP (s : St) : Nat → St
  | 0 => { s with pDone0 := s.pDone0 + 1 }
  | 1 => { s with pDone1 := s.pDone1 + 1 }
  | 2 => { s with pDone2 := s.pDone2 + 1 }
  | _ => s

/-- Record one more completed iteration for consumer `c`. -/
def bumpC (s : St) : Nat → St
  | 0 => { s with cDone0 := s.cDone0 + 1 }
  | 1 => { s with cDone1 := s.cDone1 + 1 }
  | _ => s

/-- Initial state: all globals zero (C zero initialisation), no history. -/
def init : St := ⟨Chan.init, 0, [], [], 0, 0, 0, 0, 0⟩

/-- Effect of one producer loop iteration body once the guard
`(insertAt + 1) % BUFFER_SIZE == removeAt` is false (producer, lines
162-173): `produce` reads and increments `globalProductionCounter`
(line 82-86) and `append` stores the produced value. -/
def enqueue (p : Nat) (s : St) : St :=
  bumpP
    { s with
      chan := Chan.append s.globalProductionCounter s.chan
      globalProductionCounter := s.globalProductionCounter + 1
      enqLog := s.enqLog ++ [(p, s.globalProductionCounter)] } p

/-- Effect of one consumer loop iteration body once the guard
`insertAt == removeAt` is false (consumer, lines 196-213): `take`
reads the slot and advances `removeAt`. -/
def dequeue (c : Nat) (s : St) : St :=
  bumpC
    { s with
      chan := (Chan.take s.chan).2
      deqLog := s.deqLog ++ [(c, (Chan.take s.chan).1)] } c

/-- Transition labels: which thread performs the next loop iteration. -/
inductive Lbl
  | prod (p : Nat)
  | cons (c : Nat)
deriving DecidableEq

/-- One loop iteration of a producer or consumer thread.  The whole body
runs while holding `mutex` (lines 163/197), and `pthread_cond_wait`
re-checks the `while` predicate after waking (lines 165-167, 200-202),
so an iteration's visible effect is one atomic mutation performed in a
state where its predicate is false; this is the exact reduction used
here. -/
inductive Step : Lbl → St → St → Prop
  | prod (p : Nat) (s : St) (hp : p < NUM_PRODUCERS)
      (hlim : s.pDone p < PRODUCTION_LIMIT)
      (hguard : (s.chan.insertAt + 1) % BUFFER_SIZE ≠ s.chan.removeAt) :
      Step (.prod p) s (enqueue p s)
  | cons (c : Nat) (s : St) (hc : c < NUM_CONSUMERS)
      (hlim : s.cDone c < CONSUMPTION_LIMIT)
      (hguard : s.chan.insertAt ≠ s.chan.removeAt) :
      Step (.cons c) s (dequeue c s)

/-- Reachable states of the monitor program. -/
inductive Reach : St → Prop
  | init : Reach init
  | step (l : Lbl) (s s' : St) : Reach s → Step l s s' → Reach s'

/-- Executable scheduler step: perform the labelled iteration if it is
enabled, otherwise leave the state unchanged. -/
def exec (l : Lbl) (s : St) : St :=
  match l with
  | .prod p =>
      if p < NUM_PRODUCERS ∧ s.pDone p < PRODUCTION_LIMIT ∧
          (s.chan.insertAt + 1) % BUFFER_SIZE ≠ s.chan.removeAt then
        enqueue p s
      else s
  | .cons c =>
      if c < NUM_CONSUMERS ∧ s.cDone c < CONSUMPTION_LIMIT ∧
          s.chan.insertAt ≠ s.chan.removeAt then
        dequeue c s
      else s

/-- Run a schedule of labels from a state. -/
def run (ls : List Lbl) (s : St) : St := ls.foldl (fun t l => exec l t) s

/-- Number of logically-filled slots: successful enqueues minus
successful dequeues. -/
def fill (s : St) : Nat := s.enqLog.length - s.deqLog.length

/-- Every worker thread has performed its full iteration count. -/
def allDone (s : St) : Prop :=
  s.pDone0 = PRODUCTION_LIMIT ∧ s.pDone1 = PRODUCTION_LIMIT ∧
  s.pDone2 = PRODUCTION_LIMIT ∧
  s.cDone0 = CONSUMPTION_LIMIT ∧ s.cDone1 = CONSUMPTION_LIMIT

/-- Inductive invariant of the monitor-backend transition system. -/
structure Inv (s : St) : Prop where
  h_ins : s.chan.insertAt < BUFFER_SIZE
  h_rem : s.chan.removeAt < BUFFER_SIZE
  h_le : s.deqLog.length ≤ s.enqLog.length
  h_cap : s.enqLog.length ≤ s.deqLog.length + (BUFFER_SIZE - 1)
  h_cursor : s.chan.insertAt =
    (s.chan.removeAt + (s.enqLog.length - s.deqLog.length)) % BUFFER_SIZE
  h_slots : ∀ k, s.deqLog.length ≤ k → k < s.enqLog.length →
    ∃ e : Nat × Int, s.enqLog[k]? = some e ∧
      s.chan.buffer ((s.chan.removeAt + (k - s.deqLog.length)) % BUFFER_SIZE) = e.2
  h_order : s.deqLog.map Prod.snd = (s.enqLog.map Prod.snd).take s.deqLog.length
  h_psum : s.enqLog.length = s.pDone0 + s.pDone1 + s.pDone2
  h_csum : s.deqLog.length = s.cDone0 + s.cDone1
  h_plim : s.pDone0 ≤ PRODUCTION_LIMIT ∧ s.pDone1 ≤ PRODUCTION_LIMIT ∧
    s.pDone2 ≤ PRODUCTION_LIMIT
  h_clim : s.cDone0 ≤ CONSUMPTION_LIMIT ∧ s.cDone1 ≤ CONSUMPTION_LIMIT

/-- The schedule that drives the configured run to completion:
75 producer iterations and 70 consumer iterations, interleaved so that
every iteration is enabled when scheduled. -/
def fullSched : List Lbl :=
  (List.replicate 25 [Lbl.prod 0, Lbl.cons 0]).flatten ++
  (List.replicate 10 [Lbl.prod 1, Lbl.cons 0]).flatten ++
  (List.replicate 15 [Lbl.prod 1, Lbl.cons 1]).flatten ++
  (List.replicate 20 [Lbl.prod 2, Lbl.cons 1]).flatten ++
  List.replicate 5 (Lbl.prod 2)

/-- Final state of the configured run. -/
def finalSt : St := run fullSched init

/-- A short run used to exhibit the order-preservation properties on a
concrete state: producer 0 enqueues, producer 1 enqueues, consumer 0
dequeues. -/
def shortSt : St := run [Lbl.prod 0, Lbl.prod 1, Lbl.cons 0] init

/-- A one-enqueue state, from which a consumer iteration is enabled. -/
def oneSt : St := run [Lbl.prod 0] init

end Monitor

namespace Sem

/-- Producer program counter in producerConsumerSemaphore.c (lines
159-168): `a0` at the loop top before `sem_wait(&empty)`, `a1` before
`sem_wait(&semaphore)`, `a2` holding the exclusion semaphore before
`produce`/`append`, `a3` before `sem_post(&semaphore)`, `a4` before
`sem_post(&filled)`. -/
inductive PPc
  | a0 | a1 | a2 | a3 | a4
deriving DecidableEq

/-- Consumer program counter (lines 191-203): `b0` before
`sem_wait(&filled)`, `b1` before `sem_wait(&semaphore)`, `b2` holding
the exclusion semaphore before `take`, `b3` before
`sem_post(&semaphore)`, `b4` before `sem_post(&empty)`. -/
inductive CPc
  | b0 | b1 | b2 | b3 | b4
deriving DecidableEq

/-- A producer thread: program counter and completed iterations. -/
structure PTh where
  pc : PPc
  iters : Nat

/-- A consumer thread: program counter, completed iterations, and the
local `consumedResult` (line 197). -/
structure CTh where
  pc : CPc
  iters : Nat
  consumedResult : Int

/-- Global state of producerConsumerSemaphore.c plus ghost counters.
`empty`, `filled` and `semaphore` are the three counting-semaphore
values (the source declares `sem_t empty; sem_t writer; sem_t
semaphore;` on lines 63-65 but waits/posts and initialises `empty`,
`filled`, `semaphore`, so the semaphore that lines 166/194/220 call
`filled` is modelled under that name).  `enqCount`/`deqCount` are ghost
totals of executed `append`/`take` calls. -/
structure St where
  chan : Chan
  globalProductionCounter : Int
  empty : Nat
  filled : Nat
  semaphore : Nat
  enqCount : Nat
  deqCount : Nat
  pA : PTh
  pB : PTh
  pC : PTh
  cA : CTh
  cB : CTh

/-- Producer thread `p` (0,1,2 for thread IDs 1,2,3). -/
def getP (s : St) : Nat → PTh
  | 0 => s.pA
  | 1 => s.pB
  | _ => s.pC

/-- Consumer thread `c` (0,1 for thread IDs 1,2). -/
def getC (s : St) : Nat → CTh
  | 0 => s.cA
  | _ => s.cB

/-- Replace producer thread `p`. -/
def setP (s : St) (x : PTh) : Nat → St
  | 0 => { s with pA := x }
  | 1 => { s with pB := x }
  | _ => { s with pC := x }

/-- Replace consumer thread `c`. -/
def setC (s : St) (x : CTh) : Nat → St
  | 0 => { s with cA := x }
  | _ => { s with cB := x }

/-- Initial state after `main` has initialised the semaphores
(lines 219-221): `sem_init(&empty, 0, BUFFER_SIZE)`,
`sem_init(&filled, 0, 0)`, `sem_init(&semaphore, 0, 1)`. -/
def init : St :=
  ⟨Chan.init, 0, BUFFER_SIZE, 0, 1, 0, 0, ⟨.a0, 0⟩, ⟨.a0, 0⟩, ⟨.a0, 0⟩,
    ⟨.b0, 0, 0⟩, ⟨.b0, 0, 0⟩⟩

/-- Transition labels. -/
inductive Lbl
  | prod (p : Nat)
  | cons (c : Nat)
deriving DecidableEq

/-- Atomic actions of producerConsumerSemaphore.c.  Each `sem_wait` /
`sem_post` is one action; `produce`+`append` (lines 163-164) run while
holding `semaphore` and touch only `semaphore`-guarded data, so they
form one atomic action, and symmetrically `take` (line 197). -/
inductive Step : Lbl → St → St → Prop
  | pWaitEmpty (p : Nat) (s : St) (hp : p < NUM_PRODUCERS)
      (hpc : (getP s p).pc = .a0) (hit : (getP s p).iters < PRODUCTION_LIMIT)
      (hem : 0 < s.empty) :
      Step (.prod p) s (setP { s with empty := s.empty - 1 } ⟨.a1, (getP s p).iters⟩ p)
  | pWaitSem (p : Nat) (s : St) (hp : p < NUM_PRODUCERS)
      (hpc : (getP s p).pc = .a1) (hsem : 0 < s.semaphore) :
      Step (.prod p) s
        (setP { s with semaphore := s.semaphore - 1 } ⟨.a2, (getP s p).iters⟩ p)
  | pMutate (p : Nat) (s : St) (hp : p < NUM_PRODUCERS)
      (hpc : (getP s p).pc = .a2) :
      Step (.prod p) s
        (setP
          { s with
            chan := Chan.append s.globalProductionCounter s.chan
            globalProductionCounter := s.globalProductionCounter + 1
            enqCount := s.enqCount + 1 } ⟨.a3, (getP s p).iters⟩ p)
  | pPostSem (p : Nat) (s : St) (hp : p < NUM_PRODUCERS)
      (hpc : (getP s p).pc = .a3) :
      Step (.prod p) s
        (setP { s with semaphore := s.semaphore + 1 } ⟨.a4, (getP s p).iters⟩ p)
  | pPostFilled (p : Nat) (s : St) (hp : p < NUM_PRODUCERS)
      (hpc : (getP s p).pc = .a4) :
      Step (.prod p) s
        (setP { s with filled := s.filled + 1 } ⟨.a0, (getP s p).iters + 1⟩ p)
  | cWaitFilled (c : Nat) (s : St) (hc : c < NUM_CONSUMERS)
      (hpc : (getC s c).pc = .b0) (hit : (getC s c).iters < CONSUMPTION_LIMIT)
      (hfi : 0 < s.filled) :
      Step (.cons c) s
        (setC { s with filled := s.filled - 1 }
          ⟨.b1, (getC s c).iters, (getC s c).consumedResult⟩ c)
  | cWaitSem (c : Nat) (s : St) (hc : c < NUM_CONSUMERS)
      (hpc : (getC s c).pc = .b1) (hsem : 0 < s.semaphore) :
      Step (.cons c) s
        (setC { s with semaphore := s.semaphore - 1 }
          ⟨.b2, (getC s c).iters, (getC s c).consumedResult⟩ c)
  | cTake (c : Nat) (s : St) (hc : c < NUM_CONSUMERS)
      (hpc : (getC s c).pc = .b2) :
      Step (.cons c) s
        (setC
          { s with
            chan := (Chan.take s.chan).2
            deqCount := s.deqCount + 1 }
          ⟨.b3, (getC s c).iters, (Chan.take s.chan).1⟩ c)
  | cPostSem (c : Nat) (s : St) (hc : c < NUM_CONSUMERS)
      (hpc : (getC s c).pc = .b3) :
      Step (.cons c) s
        (setC { s with semaphore := s.semaphore + 1 }
          ⟨.b4, (getC s c).iters, (getC s c).consumedResult⟩ c)
  | cPostEmpty (c : Nat) (s : St) (hc : c < NUM_CONSUMERS)
      (hpc : (getC s c).pc = .b4) :
      Step (.cons c) s
        (setC { s with empty := s.empty + 1 }
          ⟨.b0, (getC s c).iters + 1, (getC s c).consumedResult⟩ c)

/-- Reachable states of the semaphore program. -/
inductive Reach : St → Prop
  | init : Reach init
  | step (l : Lbl) (s s' : St) : Reach s → Step l s s' → Reach s'

/-- Executable scheduler step: perform the labelled thread's next atomic
action if enabled, otherwise leave the state unchanged. -/
def exec (l : Lbl) (s : St) : St :=
  match l with
  | .prod p =>
      if p < NUM_PRODUCERS then
        match (getP s p).pc with
        | .a0 =>
            if (getP s p).iters < PRODUCTION_LIMIT ∧ 0 < s.empty then
              setP { s with empty := s.empty - 1 } ⟨.a1, (getP s p).iters⟩ p
            else s
        | .a1 =>
            if 0 < s.semaphore then
              setP { s with semaphore := s.semaphore - 1 } ⟨.a2, (getP s p).iters⟩ p
            else s
        | .a2 =>
            setP
              { s with
                chan := Chan.append s.globalProductionCounter s.chan
                globalProductionCounter := s.globalProductionCounter + 1
                enqCount := s.enqCount + 1 } ⟨.a3, (getP s p).iters⟩ p
        | .a3 => setP { s with semaphore := s.semaphore + 1 } ⟨.a4, (getP s p).iters⟩ p
        | .a4 => setP { s with filled := s.filled + 1 } ⟨.a0, (getP s p).iters + 1⟩ p
      else s
  | .cons c =>
      if c < NUM_CONSUMERS then
        match (getC s c).pc with
        | .b0 =>
            if (getC s c).iters < CONSUMPTION_LIMIT ∧ 0 < s.filled then
              setC { s with filled := s.filled - 1 }
                ⟨.b1, (getC s c).iters, (getC s c).consumedResult⟩ c
            else s
        | .b1 =>
            if 0 < s.semaphore then
              setC { s with semaphore := s.semaphore - 1 }
                ⟨.b2, (getC s c).iters, (getC s c).consumedResult⟩ c
            else s
        | .b2 =>
            setC
              { s with
                chan := (Chan.take s.chan).2
                deqCount := s.deqCount + 1 }
              ⟨.b3, (getC s c).iters, (Chan.take s.chan).1⟩ c
        | .b3 =>
            setC { s with semaphore := s.semaphore + 1 }
              ⟨.b4, (getC s c).iters, (getC s c).consumedResult⟩ c
        | .b4 =>
            setC { s with empty := s.empty + 1 }
              ⟨.b0, (getC s c).iters + 1, (getC s c).consumedResult⟩ c
      else s

/-- Run a schedule of labels from a state. -/
def run (ls : List Lbl) (s : St) : St := ls.foldl (fun t l => exec l t) s

/-- Number of logically-filled slots: `append` calls minus `take` calls. -/
def fill (s : St) : Nat := s.enqCount - s.deqCount

/-- Indicator: producer holds an `empty` token not yet turned into a
filled slot (between `sem_wait(&empty)` and `append`). -/
def pPre : PPc → Nat
  | .a1 => 1
  | .a2 => 1
  | _ => 0

/-- Indicator: producer appended but has not yet posted `filled`. -/
def pPost : PPc → Nat
  | .a3 => 1
  | .a4 => 1
  | _ => 0

/-- Indicator: consumer consumed a `filled` token but has not yet taken. -/
def cPre : CPc → Nat
  | .b1 => 1
  | .b2 => 1
  | _ => 0

/-- Indicator: consumer took but has not yet posted `empty`. -/
def cPost : CPc → Nat
  | .b3 => 1
  | .b4 => 1
  | _ => 0

/-- Token-conservation invariant for the two counting semaphores. -/
structure Inv (s : St) : Prop where
  h_empty : s.empty + (pPre s.pA.pc + pPre s.pB.pc + pPre s.pC.pc) + s.enqCount +
      (cPost s.cA.pc + cPost s.cB.pc) = BUFFER_SIZE + s.deqCount
  h_filled : s.filled + (cPre s.cA.pc + cPre s.cB.pc) + s.deqCount +
      (pPost s.pA.pc + pPost s.pB.pc) + pPost s.pC.pc = s.enqCount

/-- Schedule driving producer 0 through ten full iterations: fifty
consecutive atomic actions of thread `prod 0`. -/
def tenSched : List Lbl := List.replicate 50 (Lbl.prod 0)

/-- The state after producer 0 has enqueued ten items with no
consumption: all ten slots are filled. -/
def fullSt : St := run tenSched init

/-- The state in which consumer 0 has passed `sem_wait(&filled)` and
`sem_wait(&semaphore)` and is about to execute `take`. -/
def atTakeSt : St := run (tenSched ++ [Lbl.cons 0, Lbl.cons 0]) init

end Sem

namespace RW

/-- Writer program counter, shared shape of readersWritersMutex.c
(lines 74-96) and readersWritersSemaphore.c (lines 73-96): `w0` at the
loop top where `stillWriting` is tested, `w1` before acquiring the
writer-exclusion primitive, `w2` before `buffer[0] = threadID`, `w3`
between the two field writes, `w4` before releasing, `wDone` after the
loop.  The mutex `writerMutex` and the binary semaphore `writerS`
(initial value 1) implement the same exclusion, so one model covers
both files. -/
inductive WPc
  | w0 | w1 | w2 | w3 | w4 | wDone
deriving DecidableEq

/-- Reader program counter (readersWritersMutex.c lines 109-160,
readersWritersSemaphore.c lines 109-162): `r0` at the `stillWriting`
test; `r1` before acquiring the reader-exclusion primitive; `r2` before
`readCount++`; `r3` at `if (readCount == 1)` (acquiring
writer-exclusion if so); `r4` before releasing reader-exclusion; `r5`
before `index1 = buffer[0]`; `r6` before `index2 = buffer[1]` and the
consistency report; `r7` before re-acquiring reader-exclusion; `r8`
before `readCount--`; `r9` at `if (readCount == 0)` (releasing
writer-exclusion if so); `r10` before releasing reader-exclusion;
`rSkipDone` when the `stillWriting` test failed (no buffer access);
`rDone` after a completed read. -/
inductive RPc
  | r0 | r1 | r2 | r3 | r4 | r5 | r6 | r7 | r8 | r9 | r10 | rSkipDone | rDone
deriving DecidableEq

/-- State of the writer-exclusion primitive: free, held by writer `i`,
or held by a reader cohort (acquired by the first reader, released by
the last — the hand-off semantics the design requires). -/
inductive WM
  | free
  | wheld (i : Nat)
  | rheld
deriving DecidableEq

/-- A writer thread: program counter and completed loop iterations. -/
structure WTh where
  pc : WPc
  iters : Nat

/-- A reader thread: program counter and the local `index1`. -/
structure RTh where
  pc : RPc
  index1 : Int

/-- Global state of the synchronised readers/writers programs plus the
ghost observation log `obs`, which records
`(reader index, index1, index2)` for every executed consistency check
(lines 134-143). -/
structure St where
  buffer0 : Int
  buffer1 : Int
  readCount : Nat
  writerMutex : WM
  readerMutex : Bool
  stillWriting : Bool
  obs : List (Nat × Int × Int)
  wA : WTh
  wB : WTh
  wC : WTh
  rA : RTh
  rB : RTh
  rC : RTh

/-- Writer thread `i` (0,1,2 for thread IDs 1,2,3). -/
def getW (s : St) : Nat → WTh
  | 0 => s.wA
  | 1 => s.wB
  | _ => s.wC

/-- Reader thread `i` (0,1,2 for thread IDs 1,2,3). -/
def getR (s : St) : Nat → RTh
  | 0 => s.rA
  | 1 => s.rB
  | _ => s.rC

/-- Replace writer thread `i`. -/
def setW (s : St) (x : WTh) : Nat → St
  | 0 => { s with wA := x }
  | 1 => { s with wB := x }
  | _ => { s with wC := x }

/-- Replace reader thread `i`. -/
def setR (s : St) (x : RTh) : Nat → St
  | 0 => { s with rA := x }
  | 1 => { s with rB := x }
  | _ => { s with rC := x }

/-- Initial state: zero-filled buffer, `readCount = 0`,
`stillWriting = true`, both primitives free. -/
def init : St :=
  ⟨0, 0, 0, .free, false, true, [], ⟨.w0, 0⟩, ⟨.w0, 0⟩, ⟨.w0, 0⟩,
    ⟨.r0, 0⟩, ⟨.r0, 0⟩, ⟨.r0, 0⟩⟩

/-- Transition labels: a writer thread, a reader thread, or the
orchestrator in `main` flipping `stillWriting` after all writers have
been joined (readersWritersMutex.c line 210). -/
inductive Lbl
  | w (i : Nat)
  | r (i : Nat)
  | flip
deriving DecidableEq

/-- Atomic actions of the synchronised readers/writers programs.  Every
acquisition or release of a primitive, every shared-variable access and
every branch on a shared variable is its own action. -/
inductive Step : Lbl → St → St → Prop
  | wCheckT (i : Nat) (s : St) (hi : i < NUM_WRITERS)
      (hpc : (getW s i).pc = .w0) (hit : (getW s i).iters < WRITE_ACTIONS)
      (hsw : s.stillWriting = true) :
      Step (.w i) s (setW s ⟨.w1, (getW s i).iters⟩ i)
  | wCheckF (i : Nat) (s : St) (hi : i < NUM_WRITERS)
      (hpc : (getW s i).pc = .w0) (hit : (getW s i).iters < WRITE_ACTIONS)
      (hsw : s.stillWriting = false) :
      Step (.w i) s (setW s ⟨.w0, (getW s i).iters + 1⟩ i)
  | wFinish (i : Nat) (s : St) (hi : i < NUM_WRITERS)
      (hpc : (getW s i).pc = .w0) (hit : ¬ (getW s i).iters < WRITE_ACTIONS) :
      Step (.w i) s (setW s ⟨.wDone, (getW s i).iters⟩ i)
  | wLock (i : Nat) (s : St) (hi : i < NUM_WRITERS)
      (hpc : (getW s i).pc = .w1) (hwm : s.writerMutex = .free) :
      Step (.w i) s
        (setW { s with writerMutex := .wheld i } ⟨.w2, (getW s i).iters⟩ i)
  | wWrite0 (i : Nat) (s : St) (hi : i < NUM_WRITERS)
      (hpc : (getW s i).pc = .w2) :
      Step (.w i) s
        (setW { s with buffer0 := (i : Int) + 1 } ⟨.w3, (getW s i).iters⟩ i)
  | wWrite1 (i : Nat) (s : St) (hi : i < NUM_WRITERS)
      (hpc : (getW s i).pc = .w3) :
      Step (.w i) s
        (setW { s with buffer1 := (i : Int) + 1 } ⟨.w4, (getW s i).iters⟩ i)
  | wUnlock (i : Nat) (s : St) (hi : i < NUM_WRITERS)
      (hpc : (getW s i).pc = .w4) :
      Step (.w i) s
        (setW { s with writerMutex := .free } ⟨.w0, (getW s i).iters + 1⟩ i)
  | rCheckT (i : Nat) (s : St) (hi : i < NUM_READERS)
      (hpc : (getR s i).pc = .r0) (hsw : s.stillWriting = true) :
      Step (.r i) s (setR s ⟨.r1, (getR s i).index1⟩ i)
  | rCheckF (i : Nat) (s : St) (hi : i < NUM_READERS)
      (hpc : (getR s i).pc = .r0) (hsw : s.stillWriting = false) :
      Step (.r i) s (setR s ⟨.rSkipDone, (getR s i).index1⟩ i)
  | rLock1 (i : Nat) (s : St) (hi : i < NUM_READERS)
      (hpc : (getR s i).pc = .r1) (hrm : s.readerMutex = false) :
      Step (.r i) s
        (setR { s with readerMutex := true } ⟨.r2, (getR s i).index1⟩ i)
  | rInc (i : Nat) (s : St) (hi : i < NUM_READERS)
      (hpc : (getR s i).pc = .r2) :
      Step (.r i) s
        (setR { s with readCount := s.readCount + 1 } ⟨.r3, (getR s i).index1⟩ i)
  | rFirst (i : Nat) (s : St) (hi : i < NUM_READERS)
      (hpc : (getR s i).pc = .r3) (hone : s.readCount = 1)
      (hwm : s.writerMutex = .free) :
      Step (.r i) s
        (setR { s with writerMutex := .rheld } ⟨.r4, (getR s i).index1⟩ i)
  | rNotFirst (i : Nat) (s : St) (hi : i < NUM_READERS)
      (hpc : (getR s i).pc = .r3) (hone : s.readCount ≠ 1) :
      Step (.r i) s (setR s ⟨.r4, (getR s i).index1⟩ i)
  | rUnlock1 (i : Nat) (s : St) (hi : i < NUM_READERS)
      (hpc : (getR s i).pc = .r4) :
      Step (.r i) s
        (setR { s with readerMutex := false } ⟨.r5, (getR s i).index1⟩ i)
  | rRead0 (i : Nat) (s : St) (hi : i < NUM_READERS)
      (hpc : (getR s i).pc = .r5) :
      Step (.r i) s (setR s ⟨.r6, s.buffer0⟩ i)
  | rRead1 (i : Nat) (s : St) (hi : i < NUM_READERS)
      (hpc : (getR s i).pc = .r6) :
      Step (.r i) s
        (setR { s with obs := s.obs ++ [(i, (getR s i).index1, s.buffer1)] }
          ⟨.r7, (getR s i).index1⟩ i)
  | rLock2 (i : Nat) (s : St) (hi : i < NUM_READERS)
      (hpc : (getR s i).pc = .r7) (hrm : s.readerMutex = false) :
      Step (.r i) s
        (setR { s with readerMutex := true } ⟨.r8, (getR s i).index1⟩ i)
  | rDec (i : Nat) (s : St) (hi : i < NUM_READERS)
      (hpc : (getR s i).pc = .r8) :
      Step (.r i) s
        (setR { s with readCount := s.readCount - 1 } ⟨.r9, (getR s i).index1⟩ i)
  | rLast (i : Nat) (s : St) (hi : i < NUM_READERS)
      (hpc : (getR s i).pc = .r9) (hzero : s.readCount = 0) :
      Step (.r i) s
        (setR { s with writerMutex := .free } ⟨.r10, (getR s i).index1⟩ i)
  | rNotLast (i : Nat) (s : St) (hi : i < NUM_READERS)
      (hpc : (getR s i).pc = .r9) (hzero : s.readCount ≠ 0) :
      Step (.r i) s (setR s ⟨.r10, (getR s i).index1⟩ i)
  | rUnlock2 (i : Nat) (s : St) (hi : i < NUM_READERS)
      (hpc : (getR s i).pc = .r10) :
      Step (.r i) s
        (setR { s with readerMutex := false } ⟨.rDone, (getR s i).index1⟩ i)
  | flip (s : St) (hwa : s.wA.pc = .wDone) (hwb : s.wB.pc = .wDone)
      (hwc : s.wC.pc = .wDone) :
      Step .flip s { s with stillWriting := false }

/-- Reachable states of the synchronised readers/writers programs. -/
inductive Reach : St → Prop
  | init : Reach init
  | step (l : Lbl) (s s' : St) : Reach s → Step l s s' → Reach s'

/-- Writer holds the writer-exclusion primitive at these counters. -/
def inCSW (pc : WPc) : Bool := pc == .w2 || pc == .w3 || pc == .w4

/-- Indicator: reader counter lies between `readCount++` and
`readCount--` (it contributes to `readCount`). -/
def midInd : RPc → Nat
  | .r0 => 0 | .r1 => 0 | .r2 => 0 | .r3 => 1 | .r4 => 1 | .r5 => 1
  | .r6 => 1 | .r7 => 1 | .r8 => 1 | .r9 => 0 | .r10 => 0
  | .rSkipDone => 0 | .rDone => 0

/-- Indicator: reader counter holds the reader-exclusion primitive. -/
def rmInd : RPc → Nat
  | .r0 => 0 | .r1 => 0 | .r2 => 1 | .r3 => 1 | .r4 => 1 | .r5 => 0
  | .r6 => 0 | .r7 => 0 | .r8 => 1 | .r9 => 1 | .r10 => 1
  | .rSkipDone => 0 | .rDone => 0

/-- Indicator: reader counter lies after the consistency check. -/
def doneInd : RPc → Nat
  | .r0 => 0 | .r1 => 0 | .r2 => 0 | .r3 => 0 | .r4 => 0 | .r5 => 0
  | .r6 => 0 | .r7 => 1 | .r8 => 1 | .r9 => 1 | .r10 => 1
  | .rSkipDone => 0 | .rDone => 1

/-- Number of readers between `readCount++` and `readCount--`. -/
def cntMid (s : St) : Nat := midInd s.rA.pc + midInd s.rB.pc + midInd s.rC.pc

/-- Number of readers holding the reader-exclusion primitive. -/
def cntRM (s : St) : Nat := rmInd s.rA.pc + rmInd s.rB.pc + rmInd s.rC.pc

/-- Reader counters at which the cohort holds writer-exclusion. -/
def inHold (pc : RPc) : Bool :=
  pc == .r4 || pc == .r5 || pc == .r6 || pc == .r7 || pc == .r8 || pc == .r9

/-- Number of observations recorded by reader `i`. -/
def obsCnt (s : St) (i : Nat) : Nat := (s.obs.filter fun e => e.1 == i).length

/-- Inductive invariant of the synchronised readers/writers programs,
stated field-by-field over the three writer and three reader threads. -/
structure Inv (s : St) : Prop where
  csA : inCSW s.wA.pc = true → s.writerMutex = .wheld 0
  csB : inCSW s.wB.pc = true → s.writerMutex = .wheld 1
  csC : inCSW s.wC.pc = true → s.writerMutex = .wheld 2
  count : s.readCount = cntMid s
  rm1 : cntRM s ≤ 1
  rm0 : s.readerMutex = false → cntRM s = 0
  holdA : inHold s.rA.pc = true → s.writerMutex = .rheld
  holdB : inHold s.rB.pc = true → s.writerMutex = .rheld
  holdC : inHold s.rC.pc = true → s.writerMutex = .rheld
  bufEq : s.wA.pc ≠ .w3 → s.wB.pc ≠ .w3 → s.wC.pc ≠ .w3 → s.buffer0 = s.buffer1
  w3A : s.wA.pc = .w3 → s.buffer0 = 1
  w3B : s.wB.pc = .w3 → s.buffer0 = 2
  w3C : s.wC.pc = .w3 → s.buffer0 = 3
  r6A : s.rA.pc = .r6 → s.rA.index1 = s.buffer0 ∧ s.buffer0 = s.buffer1
  r6B : s.rB.pc = .r6 → s.rB.index1 = s.buffer0 ∧ s.buffer0 = s.buffer1
  r6C : s.rC.pc = .r6 → s.rC.index1 = s.buffer0 ∧ s.buffer0 = s.buffer1
  obsOk : ∀ e ∈ s.obs, e.2.1 = e.2.2
  ocntA : obsCnt s 0 = doneInd s.rA.pc
  ocntB : obsCnt s 1 = doneInd s.rB.pc
  ocntC : obsCnt s 2 = doneInd s.rC.pc

end RW

namespace Unsync

/-- Writer program counter in readersWritersUnsynchronized.c (lines
67-87): `v0` at the loop top before `buffer[0] = threadID`, `v1` before
`buffer[1] = threadID`, `vDone` after the loop. -/
inductive WPc
  | v0 | v1 | vDone
deriving DecidableEq

/-- Reader program counter (lines 100-132): `u0` at the `stillWriting`
test, `u1` before `index1 = buffer[0]`, `u2` before `index2 = buffer[1]`
and the consistency report, `uSkipDone` when the test failed (no buffer
access), `uDone` after the one read. -/
inductive RPc
  | u0 | u1 | u2 | uSkipDone | uDone
deriving DecidableEq

/-- A writer thread of the unsynchronised variant. -/
structure WTh where
  pc : WPc
  iters : Nat

/-- A reader thread of the unsynchronised variant. -/
structure RTh where
  pc : RPc
  index1 : Int

/-- Global state of readersWritersUnsynchronized.c plus the ghost
observation log. -/
structure St where
  buffer0 : Int
  buffer1 : Int
  stillWriting : Bool
  obs : List (Nat × Int × Int)
  wA : WTh
  wB : WTh
  wC : WTh
  rA : RTh
  rB : RTh
  rC : RTh

/-- Writer thread `i`. -/
def getW (s : St) : Nat → WTh
  | 0 => s.wA
  | 1 => s.wB
  | _ => s.wC

/-- Reader thread `i`. -/
def getR (s : St) : Nat → RTh
  | 0 => s.rA
  | 1 => s.rB
  | _ => s.rC

/-- Replace writer thread `i`. -/
def setW (s : St) (x : WTh) : Nat → St
  | 0 => { s with wA := x }
  | 1 => { s with wB := x }
  | _ => { s with wC := x }

/-- Replace reader thread `i`. -/
def setR (s : St) (x : RTh) : Nat → St
  | 0 => { s with rA := x }
  | 1 => { s with rB := x }
  | _ => { s with rC := x }

/-- Initial state. -/
def init : St :=
  ⟨0, 0, true, [], ⟨.v0, 0⟩, ⟨.v0, 0⟩, ⟨.v0, 0⟩, ⟨.u0, 0⟩, ⟨.u0, 0⟩, ⟨.u0, 0⟩⟩

/-- Transition labels. -/
inductive Lbl
  | w (i : Nat)
  | r (i : Nat)
  | flip
deriving DecidableEq

/-- Atomic actions of readersWritersUnsynchronized.c: no exclusion at
all, each buffer access is its own action. -/
inductive Step : Lbl → St → St → Prop
  | wWrite0 (i : Nat) (s : St) (hi : i < NUM_WRITERS)
      (hpc : (getW s i).pc = .v0) (hit : (getW s i).iters < WRITE_ACTIONS) :
      Step (.w i) s
        (setW { s with buffer0 := (i : Int) + 1 } ⟨.v1, (getW s i).iters⟩ i)
  | wWrite1 (i : Nat) (s : St) (hi : i < NUM_WRITERS)
      (hpc : (getW s i).pc = .v1) :
      Step (.w i) s
        (setW { s with buffer1 := (i : Int) + 1 } ⟨.v0, (getW s i).iters + 1⟩ i)
  | wFinish (i : Nat) (s : St) (hi : i < NUM_WRITERS)
      (hpc : (getW s i).pc = .v0) (hit : ¬ (getW s i).iters < WRITE_ACTIONS) :
      Step (.w i) s (setW s ⟨.vDone, (getW s i).iters⟩ i)
  | rCheckT (i : Nat) (s : St) (hi : i < NUM_READERS)
      (hpc : (getR s i).pc = .u0) (hsw : s.stillWriting = true) :
      Step (.r i) s (setR s ⟨.u1, (getR s i).index1⟩ i)
  | rCheckF (i : Nat) (s : St) (hi : i < NUM_READERS)
      (hpc : (getR s i).pc = .u0) (hsw : s.stillWriting = false) :
      Step (.r i) s (setR s ⟨.uSkipDone, (getR s i).index1⟩ i)
  | rRead0 (i : Nat) (s : St) (hi : i < NUM_READERS)
      (hpc : (getR s i).pc = .u1) :
      Step (.r i) s (setR s ⟨.u2, s.buffer0⟩ i)
  | rRead1 (i : Nat) (s : St) (hi : i < NUM_READERS)
      (hpc : (getR s i).pc = .u2) :
      Step (.r i) s
        (setR { s with obs := s.obs ++ [(i, (getR s i).index1, s.buffer1)] }
          ⟨.uDone, (getR s i).index1⟩ i)
  | flip (s : St) (hwa : s.wA.pc = .vDone) (hwb : s.wB.pc = .vDone)
      (hwc : s.wC.pc = .vDone) :
      Step .flip s { s with stillWriting := false }

/-- Reachable states of the unsynchronised readers/writers program. -/
inductive Reach : St → Prop
  | init : Reach init
  | step (l : Lbl) (s s' : St) : Reach s → Step l s s' → Reach s'

/-- Indicator: reader counter lies after the consistency check. -/
def doneInd : RPc → Nat
  | .u0 => 0 | .u1 => 0 | .u2 => 0 | .uSkipDone => 0 | .uDone => 1

/-- Number of observations recorded by reader `i`. -/
def obsCnt (s : St) (i : Nat) : Nat := (s.obs.filter fun e => e.1 == i).length

/-- Inductive invariant: each reader records exactly one observation on
the read path and none otherwise. -/
structure Inv (s : St) : Prop where
  ocntA : obsCnt s 0 = doneInd s.rA.pc
  ocntB : obsCnt s 1 = doneInd s.rB.pc
  ocntC : obsCnt s 2 = doneInd s.rC.pc

/-- One full read by reader 0: check the flag, read field 0, read
field 1 and record. -/
def uS1 : St := setR init ⟨.u1, (getR init 0).index1⟩ 0

/-- Reader 0 has read `buffer[0]`. -/
def uS2 : St := setR uS1 ⟨.u2, uS1.buffer0⟩ 0

/-- Reader 0 has read `buffer[1]` and recorded its observation. -/
def uS3 : St :=
  setR { uS2 with obs := uS2.obs ++ [(0, (getR uS2 0).index1, uS2.buffer1)] }
    ⟨.uDone, (getR uS2 0).index1⟩ 0

end Unsync

namespace RW

/-- Trace of one full read by reader 0 from the initial state; each
`rwS`-state is the successor produced by the next atomic action. -/
def rwS1 : St := setR init ⟨.r1, (getR init 0).index1⟩ 0

/-- Reader 0 holds the reader-exclusion primitive. -/
def rwS2 : St := setR { rwS1 with readerMutex := true } ⟨.r2, (getR rwS1 0).index1⟩ 0

/-- Reader 0 has incremented `readCount` to 1. -/
def rwS3 : St := setR { rwS2 with readCount := rwS2.readCount + 1 } ⟨.r3, (getR rwS2 0).index1⟩ 0

/-- Reader 0, as first reader, has acquired writer-exclusion. -/
def rwS4 : St := setR { rwS3 with writerMutex := .rheld } ⟨.r4, (getR rwS3 0).index1⟩ 0

/-- Reader 0 has released the reader-exclusion primitive. -/
def rwS5 : St := setR { rwS4 with readerMutex := false } ⟨.r5, (getR rwS4 0).index1⟩ 0

/-- Reader 0 has read `buffer[0]`. -/
def rwS6 : St := setR rwS5 ⟨.r6, rwS5.buffer0⟩ 0

/-- Reader 0 has read `buffer[1]` and recorded its observation. -/
def rwS7 : St :=
  setR { rwS6 with obs := rwS6.obs ++ [(0, (getR rwS6 0).index1, rwS6.buffer1)] }
    ⟨.r7, (getR rwS6 0).index1⟩ 0

/-- Reader 0 has re-acquired the reader-exclusion primitive. -/
def rwS8 : St := setR { rwS7 with readerMutex := true } ⟨.r8, (getR rwS7 0).index1⟩ 0

/-- Reader 0 has decremented `readCount` to 0. -/
def rwS9 : St := setR { rwS8 with readCount := rwS8.readCount - 1 } ⟨.r9, (getR rwS8 0).index1⟩ 0

/-- Reader 0, as last reader, has released writer-exclusion. -/
def rwS10 : St := setR { rwS9 with writerMutex := .free } ⟨.r10, (getR rwS9 0).index1⟩ 0

/-- Reader 0 has released reader-exclusion and finished. -/
def rwS11 : St := setR { rwS10 with readerMutex := false } ⟨.rDone, (getR rwS10 0).index1⟩ 0

end RW

/-- Fixed configuration of the producer/consumer programs: the five
compile-time constants of producerConsumerMonitor.c lines 11-35 and
producerConsumerSemaphore.c lines 11-33, gathered in one record so that
the `main` models can be stated for arbitrary values. -/
structure PCConfig where
  bufferSize : Nat
  productionLimit : Nat
  consumptionLimit : Nat
  numProducers : Nat
  numConsumers : Nat

/-- The shipped configuration. -/
def theConfig : PCConfig :=
  ⟨BUFFER_SIZE, PRODUCTION_LIMIT, CONSUMPTION_LIMIT, NUM_PRODUCERS, NUM_CONSUMERS⟩

/-- Outcomes of the fallible primitive calls made by `main` of
producerConsumerMonitor.c: `true` means the call returned 0 (success).
Creation/join outcomes are indexed by thread ID (1-based). -/
structure MonPrims where
  mutexInitOk : Bool
  condFilledInitOk : Bool
  condEmptyInitOk : Bool
  createProducerOk : Nat → Bool
  createConsumerOk : Nat → Bool
  joinProducerOk : Nat → Bool
  joinConsumerOk : Nat → Bool

/-- Exit status of `main` of producerConsumerMonitor.c (lines 225-284)
as a function of the primitive-call outcomes: every `pthread_mutex_init`,
`pthread_cond_init`, `pthread_create` and `pthread_join` is checked and
a failure returns -1 immediately; otherwise 0. -/
def monitorMain (cfg : PCConfig) (pr : MonPrims) : Int :=
  if pr.mutexInitOk = false then -1
  else if pr.condFilledInitOk = false then -1
  else if pr.condEmptyInitOk = false then -1
  else if ((List.range cfg.numProducers).all fun k => pr.createProducerOk (k + 1)) = false then -1
  else if ((List.range cfg.numConsumers).all fun k => pr.createConsumerOk (k + 1)) = false then -1
  else if ((List.range cfg.numProducers).all fun k => pr.joinProducerOk (k + 1)) = false then -1
  else if ((List.range cfg.numConsumers).all fun k => pr.joinConsumerOk (k + 1)) = false then -1
  else 0

/-- All primitive calls of the monitor `main` succeeded. -/
def monAllOk (cfg : PCConfig) (pr : MonPrims) : Prop :=
  pr.mutexInitOk = true ∧ pr.condFilledInitOk = true ∧ pr.condEmptyInitOk = true ∧
  ((List.range cfg.numProducers).all fun k => pr.createProducerOk (k + 1)) = true ∧
  ((List.range cfg.numConsumers).all fun k => pr.createConsumerOk (k + 1)) = true ∧
  ((List.range cfg.numProducers).all fun k => pr.joinProducerOk (k + 1)) = true ∧
  ((List.range cfg.numConsumers).all fun k => pr.joinConsumerOk (k + 1)) = true

/-- Outcomes of the fallible primitive calls made by `main` of
producerConsumerSemaphore.c. -/
structure SemPrims where
  semEmptyInitOk : Bool
  semFilledInitOk : Bool
  semSemaphoreInitOk : Bool
  createProducerOk : Nat → Bool
  createConsumerOk : Nat → Bool
  joinProducerOk : Nat → Bool
  joinConsumerOk : Nat → Bool

/-- Exit status of `main` of producerConsumerSemaphore.c (lines
215-261): the three `sem_init` return values (lines 219-221) are not
inspected, so the result depends only on the `pthread_create` and
`pthread_join` outcomes. -/
def semMain (cfg : PCConfig) (pr : SemPrims) : Int :=
  if ((List.range cfg.numProducers).all fun k => pr.createProducerOk (k + 1)) = false then -1
  else if ((List.range cfg.numConsumers).all fun k => pr.createConsumerOk (k + 1)) = false then -1
  else if ((List.range cfg.numProducers).all fun k => pr.joinProducerOk (k + 1)) = false then -1
  else if ((List.range cfg.numConsumers).all fun k => pr.joinConsumerOk (k + 1)) = false then -1
  else 0

/-- All thread creations and joins of the semaphore `main` succeeded. -/
def semThreadsOk (cfg : PCConfig) (pr : SemPrims) : Prop :=
  ((List.range cfg.numProducers).all fun k => pr.createProducerOk (k + 1)) = true ∧
  ((List.range cfg.numConsumers).all fun k => pr.createConsumerOk (k + 1)) = true ∧
  ((List.range cfg.numProducers).all fun k => pr.joinProducerOk (k + 1)) = true ∧
  ((List.range cfg.numConsumers).all fun k => pr.joinConsumerOk (k + 1)) = true

/-- Every monitor primitive call succeeds. -/
def allOkMonPrims : MonPrims :=
  ⟨true, true, true, fun _ => true, fun _ => true, fun _ => true, fun _ => true⟩

/-- Every semaphore-variant primitive call succeeds. -/
def allOkSemPrims : SemPrims :=
  ⟨true, true, true, fun _ => true, fun _ => true, fun _ => true, fun _ => true⟩

/-- The first `sem_init` fails; everything else succeeds. -/
def semInitFailPrims : SemPrims :=
  ⟨false, true, true, fun _ => true, fun _ => true, fun _ => true, fun _ => true⟩

/-- A configuration whose consumers demand more items than the
producers supply (1 producer producing 1 item, 2 consumers each
demanding 35): consumers would block forever. -/
def mismatchConfig : PCConfig := ⟨10, 1, 35, 1, 2⟩

theorem monitor_exec_reach {s : Monitor.St} (l : Monitor.Lbl) (h : Monitor.Reach s) :
    Monitor.Reach (Monitor.exec l s) := by
  cases l with
  | prod p =>
      by_cases hc : p < NUM_PRODUCERS ∧ s.pDone p < PRODUCTION_LIMIT ∧
          (s.chan.insertAt + 1) % BUFFER_SIZE ≠ s.chan.removeAt
      · simpa [Monitor.exec, hc] using
          Monitor.Reach.step _ s _ h (Monitor.Step.prod p s hc.1 hc.2.1 hc.2.2)
      · simpa [Monitor.exec, hc] using h
  | cons c =>
      by_cases hc : c < NUM_CONSUMERS ∧ s.cDone c < CONSUMPTION_LIMIT ∧
          s.chan.insertAt ≠ s.chan.removeAt
      · simpa [Monitor.exec, hc] using
          Monitor.Reach.step _ s _ h (Monitor.Step.cons c s hc.1 hc.2.1 hc.2.2)
      · simpa [Monitor.exec, hc] using h

theorem monitor_run_reach {s : Monitor.St} (ls : List Monitor.Lbl)
    (h : Monitor.Reach s) : Monitor.Reach (Monitor.run ls s) := by
  induction ls generalizing s with
  | nil => simpa [Monitor.run] using h
  | cons l ls ih =>
      simpa [Monitor.run] using ih (monitor_exec_reach l h)

theorem monitor_inv {s : Monitor.St} (h : Monitor.Reach s) : Monitor.Inv s := by
  induction h with
  | init =>
      refine ⟨?_, ?_, ?_, ?_, ?_, ?_, ?_, ?_, ?_, ?_, ?_⟩ <;>
        simp [Monitor.init, Chan.init, BUFFER_SIZE, PRODUCTION_LIMIT, CONSUMPTION_LIMIT]
  | step l t t' hr hst ih =>
      obtain ⟨h_ins, h_rem, h_le, h_cap, h_cursor, h_slots, h_order,
        h_psum, h_csum, h_plim, h_clim⟩ := ih
      simp only [BUFFER_SIZE] at h_ins h_rem h_cap h_cursor h_slots
      simp only [PRODUCTION_LIMIT, CONSUMPTION_LIMIT] at h_plim h_clim
      cases hst with
      | prod p u hp hlim hguard =>
          simp only [NUM_PRODUCERS] at hp
          simp only [BUFFER_SIZE] at hguard
          have hf : t.enqLog.length - t.deqLog.length ≤ 8 := by omega
          have hbuf : ∀ k, t.deqLog.length ≤ k → k < t.enqLog.length →
              ∃ e : Nat × Int, (t.enqLog ++
                  [(p, t.globalProductionCounter)])[k]? = some e ∧
                Function.update t.chan.buffer t.chan.insertAt
                    t.globalProductionCounter
                    ((t.chan.removeAt + (k - t.deqLog.length)) % 10) = e.2 := by
            intro k hk1 hk2
            obtain ⟨e, he, hb⟩ := h_slots k hk1 hk2
            refine ⟨e, ?_, ?_⟩
            · rw [List.getElem?_append_left hk2]; exact he
            · rw [Function.update_noteq ?_]
              · exact hb
              · omega
          have hnew : ∃ e : Nat × Int, (t.enqLog ++
                [(p, t.globalProductionCounter)])[t.enqLog.length]? = some e ∧
              Function.update t.chan.buffer t.chan.insertAt
                  t.globalProductionCounter
                  ((t.chan.removeAt +
                    (t.enqLog.length - t.deqLog.length)) % 10) = e.2 := by
            refine ⟨(p, t.globalProductionCounter), List.getElem?_concat_length _ _, ?_⟩
            rw [show (t.chan.removeAt + (t.enqLog.length - t.deqLog.length)) % 10
                  = t.chan.insertAt from by omega]
            exact Function.update_same _ _ _
          have horder : t.deqLog.map Prod.snd =
              ((t.enqLog ++ [(p, t.globalProductionCounter)]).map Prod.snd).take
                t.deqLog.length := by
            rw [List.map_append,
              List.take_append_of_le_length (by simpa using h_le)]
            exact h_order
          have hpd : t.pDone p = t.pDone0 ∨ t.pDone p = t.pDone1 ∨
              t.pDone p = t.pDone2 := by
            interval_cases p <;> simp [Monitor.St.pDone]
          interval_cases p <;>
            · simp only [Monitor.St.pDone] at hlim
              simp only [PRODUCTION_LIMIT] at hlim
              refine ⟨?_, ?_, ?_, ?_, ?_, ?_, ?_, ?_, ?_, ?_, ?_⟩ <;>
                simp only [Monitor.enqueue, Monitor.bumpP, Chan.append,
                  BUFFER_SIZE, PRODUCTION_LIMIT, CONSUMPTION_LIMIT,
                  List.length_append, List.length_cons, List.length_nil] <;>
                first
                  | omega
                  | (intro k hk1 hk2
                     rcases Nat.lt_or_ge k t.enqLog.length with hk | hk
                     · exact hbuf k hk1 hk
                     · have hke : k = t.enqLog.length := by omega
                       subst hke
                       exact hnew)
                  | exact horder
                  | exact h_order
                  | exact hguard
      | cons c u hc hlim hguard =>
          simp only [NUM_CONSUMERS] at hc
          have hf : 1 ≤ t.enqLog.length - t.deqLog.length := by omega
          have hD : t.deqLog.length < t.enqLog.length := by omega
          obtain ⟨e0, he0, hb0⟩ := h_slots t.deqLog.length (le_refl _) hD
          have hval : t.chan.buffer t.chan.removeAt = e0.2 := by
            have : (t.chan.removeAt + (t.deqLog.length - t.deqLog.length)) % 10
                = t.chan.removeAt := by omega
            rwa [this] at hb0
          have hbuf : ∀ k, t.deqLog.length + 1 ≤ k → k < t.enqLog.length →
              ∃ e : Nat × Int, t.enqLog[k]? = some e ∧
                t.chan.buffer (((t.chan.removeAt + 1) % 10 +
                  (k - (t.deqLog.length + 1))) % 10) = e.2 := by
            intro k hk1 hk2
            obtain ⟨e, he, hb⟩ := h_slots k (by omega) hk2
            refine ⟨e, he, ?_⟩
            rw [show ((t.chan.removeAt + 1) % 10 + (k - (t.deqLog.length + 1))) % 10
                  = (t.chan.removeAt + (k - t.deqLog.length)) % 10 from by omega]
            exact hb
          have horder : (t.deqLog ++ [(c, t.chan.buffer t.chan.removeAt)]).map
                Prod.snd =
              (t.enqLog.map Prod.snd).take (t.deqLog.length + 1) := by
            rw [List.map_append, List.take_succ, ← h_order]
            congr 1
            rw [List.getElem?_map _ _ _, he0, hval]
            rfl
          interval_cases c <;>
            · simp only [Monitor.St.cDone] at hlim
              simp only [CONSUMPTION_LIMIT] at hlim
              refine ⟨?_, ?_, ?_, ?_, ?_, ?_, ?_, ?_, ?_, ?_, ?_⟩ <;>
                simp only [Monitor.dequeue, Monitor.bumpC, Chan.take,
                  BUFFER_SIZE, PRODUCTION_LIMIT, CONSUMPTION_LIMIT,
                  List.length_append, List.length_cons, List.length_nil] <;>
                first
                  | omega
                  | (intro k hk1 hk2; exact hbuf k hk1 hk2)
                  | exact horder
                  | exact h_psum

theorem sem_exec_reach {s : Sem.St} (l : Sem.Lbl) (h : Sem.Reach s) :
    Sem.Reach (Sem.exec l s) := by
  cases l with
  | prod p =>
      by_cases hp : p < NUM_PRODUCERS
      · rcases hpc : (Sem.getP s p).pc with _ | _ | _ | _ | _
        · by_cases hg : (Sem.getP s p).iters < PRODUCTION_LIMIT ∧ 0 < s.empty
          · simpa [Sem.exec, hp, hpc, hg] using
              Sem.Reach.step _ s _ h (Sem.Step.pWaitEmpty p s hp hpc hg.1 hg.2)
          · simpa [Sem.exec, hp, hpc, hg] using h
        · by_cases hg : 0 < s.semaphore
          · simpa [Sem.exec, hp, hpc, hg] using
              Sem.Reach.step _ s _ h (Sem.Step.pWaitSem p s hp hpc hg)
          · simpa [Sem.exec, hp, hpc, hg] using h
        · simpa [Sem.exec, hp, hpc] using
            Sem.Reach.step _ s _ h (Sem.Step.pMutate p s hp hpc)
        · simpa [Sem.exec, hp, hpc] using
            Sem.Reach.step _ s _ h (Sem.Step.pPostSem p s hp hpc)
        · simpa [Sem.exec, hp, hpc] using
            Sem.Reach.step _ s _ h (Sem.Step.pPostFilled p s hp hpc)
      · simpa [Sem.exec, hp] using h
  | cons c =>
      by_cases hc : c < NUM_CONSUMERS
      · rcases hpc : (Sem.getC s c).pc with _ | _ | _ | _ | _
        · by_cases hg : (Sem.getC s c).iters < CONSUMPTION_LIMIT ∧ 0 < s.filled
          · simpa [Sem.exec, hc, hpc, hg] using
              Sem.Reach.step _ s _ h (Sem.Step.cWaitFilled c s hc hpc hg.1 hg.2)
          · simpa [Sem.exec, hc, hpc, hg] using h
        · by_cases hg : 0 < s.semaphore
          · simpa [Sem.exec, hc, hpc, hg] using
              Sem.Reach.step _ s _ h (Sem.Step.cWaitSem c s hc hpc hg)
          · simpa [Sem.exec, hc, hpc, hg] using h
        · simpa [Sem.exec, hc, hpc] using
            Sem.Reach.step _ s _ h (Sem.Step.cTake c s hc hpc)
        · simpa [Sem.exec, hc, hpc] using
            Sem.Reach.step _ s _ h (Sem.Step.cPostSem c s hc hpc)
        · simpa [Sem.exec, hc, hpc] using
            Sem.Reach.step _ s _ h (Sem.Step.cPostEmpty c s hc hpc)
      · simpa [Sem.exec, hc] using h

theorem sem_run_reach {s : Sem.St} (ls : List Sem.Lbl) (h : Sem.Reach s) :
    Sem.Reach (Sem.run ls s) := by
  induction ls generalizing s with
  | nil => simpa [Sem.run] using h
  | cons l ls ih => simpa [Sem.run] using ih (sem_exec_reach l h)

theorem sem_inv {s : Sem.St} (h : Sem.Reach s) : Sem.Inv s := by
  induction h with
  | init =>
      refine ⟨?_, ?_⟩ <;> simp [Sem.init, Sem.pPre, Sem.pPost, Sem.cPre,
        Sem.cPost, BUFFER_SIZE]
  | step l t t' hr hst ih =>
      obtain ⟨h_empty, h_filled⟩ := ih
      cases hst with
      | pWaitEmpty p u hp hpc hit hem =>
          simp only [NUM_PRODUCERS] at hp
          interval_cases p <;>
            · simp only [Sem.getP] at hpc
              refine ⟨?_, ?_⟩ <;>
                simp only [Sem.setP, Sem.getP, Sem.setC, Sem.getC, hpc, Sem.pPre,
                  Sem.pPost, Sem.cPre, Sem.cPost] at h_empty h_filled ⊢ <;> omega
      | pWaitSem p u hp hpc hsem =>
          simp only [NUM_PRODUCERS] at hp
          interval_cases p <;>
            · simp only [Sem.getP] at hpc
              refine ⟨?_, ?_⟩ <;>
                simp only [Sem.setP, Sem.getP, Sem.setC, Sem.getC, hpc, Sem.pPre,
                  Sem.pPost, Sem.cPre, Sem.cPost] at h_empty h_filled ⊢ <;> omega
      | pMutate p u hp hpc =>
          simp only [NUM_PRODUCERS] at hp
          interval_cases p <;>
            · simp only [Sem.getP] at hpc
              refine ⟨?_, ?_⟩ <;>
                simp only [Sem.setP, Sem.getP, Sem.setC, Sem.getC, hpc, Sem.pPre,
                  Sem.pPost, Sem.cPre, Sem.cPost] at h_empty h_filled ⊢ <;> omega
      | pPostSem p u hp hpc =>
          simp only [NUM_PRODUCERS] at hp
          interval_cases p <;>
            · simp only [Sem.getP] at hpc
              refine ⟨?_, ?_⟩ <;>
                simp only [Sem.setP, Sem.getP, Sem.setC, Sem.getC, hpc, Sem.pPre,
                  Sem.pPost, Sem.cPre, Sem.cPost] at h_empty h_filled ⊢ <;> omega
      | pPostFilled p u hp hpc =>
          simp only [NUM_PRODUCERS] at hp
          interval_cases p <;>
            · simp only [Sem.getP] at hpc
              refine ⟨?_, ?_⟩ <;>
                simp only [Sem.setP, Sem.getP, Sem.setC, Sem.getC, hpc, Sem.pPre,
                  Sem.pPost, Sem.cPre, Sem.cPost] at h_empty h_filled ⊢ <;> omega
      | cWaitFilled c u hc hpc hit hfi =>
          simp only [NUM_CONSUMERS] at hc
          interval_cases c <;>
            · simp only [Sem.getC] at hpc
              refine ⟨?_, ?_⟩ <;>
                simp only [Sem.setP, Sem.getP, Sem.setC, Sem.getC, hpc, Sem.pPre,
                  Sem.pPost, Sem.cPre, Sem.cPost] at h_empty h_filled ⊢ <;> omega
      | cWaitSem c u hc hpc hsem =>
          simp only [NUM_CONSUMERS] at hc
          interval_cases c <;>
            · simp only [Sem.getC] at hpc
              refine ⟨?_, ?_⟩ <;>
                simp only [Sem.setP, Sem.getP, Sem.setC, Sem.getC, hpc, Sem.pPre,
                  Sem.pPost, Sem.cPre, Sem.cPost] at h_empty h_filled ⊢ <;> omega
      | cTake c u hc hpc =>
          simp only [NUM_CONSUMERS] at hc
          interval_cases c <;>
            · simp only [Sem.getC] at hpc
              refine ⟨?_, ?_⟩ <;>
                simp only [Sem.setP, Sem.getP, Sem.setC, Sem.getC, hpc, Sem.pPre,
                  Sem.pPost, Sem.cPre, Sem.cPost] at h_empty h_filled ⊢ <;> omega
      | cPostSem c u hc hpc =>
          simp only [NUM_CONSUMERS] at hc
          interval_cases c <;>
            · simp only [Sem.getC] at hpc
              refine ⟨?_, ?_⟩ <;>
                simp only [Sem.setP, Sem.getP, Sem.setC, Sem.getC, hpc, Sem.pPre,
                  Sem.pPost, Sem.cPre, Sem.cPost] at h_empty h_filled ⊢ <;> omega
      | cPostEmpty c u hc hpc =>
          simp only [NUM_CONSUMERS] at hc
          interval_cases c <;>
            · simp only [Sem.getC] at hpc
              refine ⟨?_, ?_⟩ <;>
                simp only [Sem.setP, Sem.getP, Sem.setC, Sem.getC, hpc, Sem.pPre,
                  Sem.pPost, Sem.cPre, Sem.cPost] at h_empty h_filled ⊢ <;> omega


theorem rw_mid_le_rm : ∀ pc : RW.RPc, RW.inHold pc = false →
    RW.midInd pc ≤ RW.rmInd pc := by
  intro pc
  cases pc <;> decide

theorem rw_hold_mid_rm : ∀ pc : RW.RPc, RW.inHold pc = true →
    1 ≤ RW.midInd pc + RW.rmInd pc := by
  intro pc
  cases pc <;> decide

set_option maxHeartbeats 4000000 in
theorem rw_inv {s : RW.St} (h : RW.Reach s) : RW.Inv s := by
  induction h with
  | init =>
      refine ⟨?_,?_,?_,?_,?_,?_,?_,?_,?_,?_,?_,?_,?_,?_,?_,?_,?_,?_,?_,?_⟩ <;>
        simp [RW.init, RW.cntMid, RW.cntRM, RW.midInd, RW.rmInd, RW.doneInd,
          RW.inCSW, RW.inHold, RW.obsCnt]
  | step l t t' hr hst ih =>
      obtain ⟨csA, csB, csC, count, rm1, rm0, holdA, holdB, holdC, bufEq,
        w3A, w3B, w3C, r6A, r6B, r6C, obsOk, ocntA, ocntB, ocntC⟩ := ih
      clear hr
      cases hst with
      | wCheckT i u hi hpc hit hsw =>
          simp only [NUM_WRITERS] at hi
          interval_cases i <;>
          · simp only [RW.getW] at hpc hit
            refine ⟨?_,?_,?_,?_,?_,?_,?_,?_,?_,?_,?_,?_,?_,?_,?_,?_,?_,?_,?_,?_⟩ <;>
              simp only [RW.setW, RW.getW, RW.setR, RW.getR, RW.cntMid, RW.cntRM,
                RW.midInd, RW.rmInd, RW.doneInd, RW.obsCnt, hpc] <;>
              first
                | assumption
                | omega
                | (intros; trivial)
                | (intro hx; exact absurd hx (by decide))
                | (intros; apply bufEq <;> first | assumption | (rw [hpc] <;> decide))
      | wCheckF i u hi hpc hit hsw =>
          simp only [NUM_WRITERS] at hi
          interval_cases i <;>
          · simp only [RW.getW] at hpc hit
            refine ⟨?_,?_,?_,?_,?_,?_,?_,?_,?_,?_,?_,?_,?_,?_,?_,?_,?_,?_,?_,?_⟩ <;>
              simp only [RW.setW, RW.getW, RW.setR, RW.getR, RW.cntMid, RW.cntRM,
                RW.midInd, RW.rmInd, RW.doneInd, RW.obsCnt, hpc] <;>
              first
                | assumption
                | omega
                | (intros; trivial)
                | (intro hx; exact absurd hx (by decide))
                | (intros; apply bufEq <;> first | assumption | (rw [hpc] <;> decide))
      | wFinish i u hi hpc hit =>
          simp only [NUM_WRITERS] at hi
          interval_cases i <;>
          · simp only [RW.getW] at hpc hit
            refine ⟨?_,?_,?_,?_,?_,?_,?_,?_,?_,?_,?_,?_,?_,?_,?_,?_,?_,?_,?_,?_⟩ <;>
              simp only [RW.setW, RW.getW, RW.setR, RW.getR, RW.cntMid, RW.cntRM,
                RW.midInd, RW.rmInd, RW.doneInd, RW.obsCnt, hpc] <;>
              first
                | assumption
                | omega
                | (intros; trivial)
                | (intro hx; exact absurd hx (by decide))
                | (intros; apply bufEq <;> first | assumption | (rw [hpc] <;> decide))
      | wLock i u hi hpc hwm =>
          simp only [NUM_WRITERS] at hi
          interval_cases i <;>
          · simp only [RW.getW] at hpc
            refine ⟨?_,?_,?_,?_,?_,?_,?_,?_,?_,?_,?_,?_,?_,?_,?_,?_,?_,?_,?_,?_⟩ <;>
              simp only [RW.setW, RW.getW, RW.setR, RW.getR, RW.cntMid, RW.cntRM,
                RW.midInd, RW.rmInd, RW.doneInd, RW.obsCnt, hpc] <;>
              first
                | assumption
                | omega
                | (intros; trivial)
                | (intro hx; exact absurd hx (by decide))
                | (intros; apply bufEq <;> first | assumption | (rw [hpc] <;> decide))
                | (intro hx
                   first
                     | (rw [csA hx] at hwm; exact absurd hwm (by decide))
                     | (rw [csB hx] at hwm; exact absurd hwm (by decide))
                     | (rw [csC hx] at hwm; exact absurd hwm (by decide))
                     | (rw [holdA hx] at hwm; exact absurd hwm (by decide))
                     | (rw [holdB hx] at hwm; exact absurd hwm (by decide))
                     | (rw [holdC hx] at hwm; exact absurd hwm (by decide)))
      | wWrite0 i u hi hpc =>
          simp only [NUM_WRITERS] at hi
          interval_cases i <;>
          · simp only [RW.getW] at hpc
            refine ⟨?_,?_,?_,?_,?_,?_,?_,?_,?_,?_,?_,?_,?_,?_,?_,?_,?_,?_,?_,?_⟩ <;>
              simp only [RW.setW, RW.getW, RW.setR, RW.getR, RW.cntMid, RW.cntRM,
                RW.midInd, RW.rmInd, RW.doneInd, RW.obsCnt, hpc] <;>
              first
                | assumption
                | omega
                | (intros; trivial)
                | (intro _; decide)
                | (intro _; first
                    | exact csA (by rw [hpc] <;> decide)
                    | exact csB (by rw [hpc] <;> decide)
                    | exact csC (by rw [hpc] <;> decide))
                | (intro hx; exact absurd hx (by decide))
                | (intro h1 h2 h3; exact absurd rfl h1)
                | (intro h1 h2 h3; exact absurd rfl h2)
                | (intro h1 h2 h3; exact absurd rfl h3)
                | (intro hx
                   first
                     | (have e1 := csA (by rw [hpc] <;> decide)
                        first
                          | (have e2 := csB hx; rw [e1] at e2; exact absurd e2 (by decide))
                          | (have e2 := csC hx; rw [e1] at e2; exact absurd e2 (by decide))
                          | (have e2 := csB (by rw [hx] <;> decide); rw [e1] at e2;
                             exact absurd e2 (by decide))
                          | (have e2 := csC (by rw [hx] <;> decide); rw [e1] at e2;
                             exact absurd e2 (by decide))
                          | (have e2 := holdA (by rw [hx] <;> decide); rw [e1] at e2;
                             exact absurd e2 (by decide))
                          | (have e2 := holdB (by rw [hx] <;> decide); rw [e1] at e2;
                             exact absurd e2 (by decide))
                          | (have e2 := holdC (by rw [hx] <;> decide); rw [e1] at e2;
                             exact absurd e2 (by decide)))
                     | (have e1 := csB (by rw [hpc] <;> decide)
                        first
                          | (have e2 := csA hx; rw [e1] at e2; exact absurd e2 (by decide))
                          | (have e2 := csC hx; rw [e1] at e2; exact absurd e2 (by decide))
                          | (have e2 := csA (by rw [hx] <;> decide); rw [e1] at e2;
                             exact absurd e2 (by decide))
                          | (have e2 := csC (by rw [hx] <;> decide); rw [e1] at e2;
                             exact absurd e2 (by decide))
                          | (have e2 := holdA (by rw [hx] <;> decide); rw [e1] at e2;
                             exact absurd e2 (by decide))
                          | (have e2 := holdB (by rw [hx] <;> decide); rw [e1] at e2;
                             exact absurd e2 (by decide))
                          | (have e2 := holdC (by rw [hx] <;> decide); rw [e1] at e2;
                             exact absurd e2 (by decide)))
                     | (have e1 := csC (by rw [hpc] <;> decide)
                        first
                          | (have e2 := csA hx; rw [e1] at e2; exact absurd e2 (by decide))
                          | (have e2 := csB hx; rw [e1] at e2; exact absurd e2 (by decide))
                          | (have e2 := csA (by rw [hx] <;> decide); rw [e1] at e2;
                             exact absurd e2 (by decide))
                          | (have e2 := csB (by rw [hx] <;> decide); rw [e1] at e2;
                             exact absurd e2 (by decide))
                          | (have e2 := holdA (by rw [hx] <;> decide); rw [e1] at e2;
                             exact absurd e2 (by decide))
                          | (have e2 := holdB (by rw [hx] <;> decide); rw [e1] at e2;
                             exact absurd e2 (by decide))
                          | (have e2 := holdC (by rw [hx] <;> decide); rw [e1] at e2;
                             exact absurd e2 (by decide))))
      | wWrite1 i u hi hpc =>
          simp only [NUM_WRITERS] at hi
          interval_cases i <;>
          · simp only [RW.getW] at hpc
            refine ⟨?_,?_,?_,?_,?_,?_,?_,?_,?_,?_,?_,?_,?_,?_,?_,?_,?_,?_,?_,?_⟩ <;>
              simp only [RW.setW, RW.getW, RW.setR, RW.getR, RW.cntMid, RW.cntRM,
                RW.midInd, RW.rmInd, RW.doneInd, RW.obsCnt, hpc] <;>
              first
                | assumption
                | omega
                | (intros; trivial)
                | (intro _; first
                    | exact csA (by rw [hpc] <;> decide)
                    | exact csB (by rw [hpc] <;> decide)
                    | exact csC (by rw [hpc] <;> decide))
                | (intro hx; exact absurd hx (by decide))
                | (intros; first
                    | (rw [w3A hpc]; decide)
                    | (rw [w3B hpc]; decide)
                    | (rw [w3C hpc]; decide))
                | (intro hx
                   first
                     | (have e1 := csA (by rw [hpc] <;> decide)
                        first
                          | (have e2 := csB hx; rw [e1] at e2; exact absurd e2 (by decide))
                          | (have e2 := csC hx; rw [e1] at e2; exact absurd e2 (by decide))
                          | (have e2 := csB (by rw [hx] <;> decide); rw [e1] at e2;
                             exact absurd e2 (by decide))
                          | (have e2 := csC (by rw [hx] <;> decide); rw [e1] at e2;
                             exact absurd e2 (by decide))
                          | (have e2 := holdA (by rw [hx] <;> decide); rw [e1] at e2;
                             exact absurd e2 (by decide))
                          | (have e2 := holdB (by rw [hx] <;> decide); rw [e1] at e2;
                             exact absurd e2 (by decide))
                          | (have e2 := holdC (by rw [hx] <;> decide); rw [e1] at e2;
                             exact absurd e2 (by decide)))
                     | (have e1 := csB (by rw [hpc] <;> decide)
                        first
                          | (have e2 := csA hx; rw [e1] at e2; exact absurd e2 (by decide))
                          | (have e2 := csC hx; rw [e1] at e2; exact absurd e2 (by decide))
                          | (have e2 := csA (by rw [hx] <;> decide); rw [e1] at e2;
                             exact absurd e2 (by decide))
                          | (have e2 := csC (by rw [hx] <;> decide); rw [e1] at e2;
                             exact absurd e2 (by decide))
                          | (have e2 := holdA (by rw [hx] <;> decide); rw [e1] at e2;
                             exact absurd e2 (by decide))
                          | (have e2 := holdB (by rw [hx] <;> decide); rw [e1] at e2;
                             exact absurd e2 (by decide))
                          | (have e2 := holdC (by rw [hx] <;> decide); rw [e1] at e2;
                             exact absurd e2 (by decide)))
                     | (have e1 := csC (by rw [hpc] <;> decide)
                        first
                          | (have e2 := csA hx; rw [e1] at e2; exact absurd e2 (by decide))
                          | (have e2 := csB hx; rw [e1] at e2; exact absurd e2 (by decide))
                          | (have e2 := csA (by rw [hx] <;> decide); rw [e1] at e2;
                             exact absurd e2 (by decide))
                          | (have e2 := csB (by rw [hx] <;> decide); rw [e1] at e2;
                             exact absurd e2 (by decide))
                          | (have e2 := holdA (by rw [hx] <;> decide); rw [e1] at e2;
                             exact absurd e2 (by decide))
                          | (have e2 := holdB (by rw [hx] <;> decide); rw [e1] at e2;
                             exact absurd e2 (by decide))
                          | (have e2 := holdC (by rw [hx] <;> decide); rw [e1] at e2;
                             exact absurd e2 (by decide))))
      | wUnlock i u hi hpc =>
          simp only [NUM_WRITERS] at hi
          interval_cases i <;>
          · simp only [RW.getW] at hpc
            refine ⟨?_,?_,?_,?_,?_,?_,?_,?_,?_,?_,?_,?_,?_,?_,?_,?_,?_,?_,?_,?_⟩ <;>
              simp only [RW.setW, RW.getW, RW.setR, RW.getR, RW.cntMid, RW.cntRM,
                RW.midInd, RW.rmInd, RW.doneInd, RW.obsCnt, hpc] <;>
              first
                | assumption
                | omega
                | (intros; trivial)
                | (intro hx; exact absurd hx (by decide))
                | (intros; apply bufEq <;> first | assumption | (rw [hpc] <;> decide))
                | (intro hx
                   first
                     | (have e1 := csA (by rw [hpc] <;> decide)
                        first
                          | (have e2 := csB hx; rw [e1] at e2; exact absurd e2 (by decide))
                          | (have e2 := csC hx; rw [e1] at e2; exact absurd e2 (by decide))
                          | (have e2 := csB (by rw [hx] <;> decide); rw [e1] at e2;
                             exact absurd e2 (by decide))
                          | (have e2 := csC (by rw [hx] <;> decide); rw [e1] at e2;
                             exact absurd e2 (by decide))
                          | (have e2 := holdA (by rw [hx] <;> decide); rw [e1] at e2;
                             exact absurd e2 (by decide))
                          | (have e2 := holdB (by rw [hx] <;> decide); rw [e1] at e2;
                             exact absurd e2 (by decide))
                          | (have e2 := holdC (by rw [hx] <;> decide); rw [e1] at e2;
                             exact absurd e2 (by decide)))
                     | (have e1 := csB (by rw [hpc] <;> decide)
                        first
                          | (have e2 := csA hx; rw [e1] at e2; exact absurd e2 (by decide))
                          | (have e2 := csC hx; rw [e1] at e2; exact absurd e2 (by decide))
                          | (have e2 := csA (by rw [hx] <;> decide); rw [e1] at e2;
                             exact absurd e2 (by decide))
                          | (have e2 := csC (by rw [hx] <;> decide); rw [e1] at e2;
                             exact absurd e2 (by decide))
                          | (have e2 := holdA (by rw [hx] <;> decide); rw [e1] at e2;
                             exact absurd e2 (by decide))
                          | (have e2 := holdB (by rw [hx] <;> decide); rw [e1] at e2;
                             exact absurd e2 (by decide))
                          | (have e2 := holdC (by rw [hx] <;> decide); rw [e1] at e2;
                             exact absurd e2 (by decide)))
                     | (have e1 := csC (by rw [hpc] <;> decide)
                        first
                          | (have e2 := csA hx; rw [e1] at e2; exact absurd e2 (by decide))
                          | (have e2 := csB hx; rw [e1] at e2; exact absurd e2 (by decide))
                          | (have e2 := csA (by rw [hx] <;> decide); rw [e1] at e2;
                             exact absurd e2 (by decide))
                          | (have e2 := csB (by rw [hx] <;> decide); rw [e1] at e2;
                             exact absurd e2 (by decide))
                          | (have e2 := holdA (by rw [hx] <;> decide); rw [e1] at e2;
                             exact absurd e2 (by decide))
                          | (have e2 := holdB (by rw [hx] <;> decide); rw [e1] at e2;
                             exact absurd e2 (by decide))
                          | (have e2 := holdC (by rw [hx] <;> decide); rw [e1] at e2;
                             exact absurd e2 (by decide))))
      | flip u hwa hwb hwc =>
          refine ⟨?_,?_,?_,?_,?_,?_,?_,?_,?_,?_,?_,?_,?_,?_,?_,?_,?_,?_,?_,?_⟩ <;>
            simp only [RW.setW, RW.getW, RW.setR, RW.getR, RW.cntMid, RW.cntRM,
              RW.midInd, RW.rmInd, RW.doneInd, RW.obsCnt] <;>
            assumption
      | rCheckT i u hi hpc hsw =>
          simp only [NUM_READERS] at hi
          interval_cases i <;>
          · simp only [RW.getR] at hpc
            simp only [RW.cntMid, RW.cntRM, RW.midInd, RW.rmInd, RW.doneInd,
              RW.obsCnt, hpc] at count rm1 rm0 ocntA ocntB ocntC
            refine ⟨?_,?_,?_,?_,?_,?_,?_,?_,?_,?_,?_,?_,?_,?_,?_,?_,?_,?_,?_,?_⟩ <;>
              simp only [RW.setW, RW.getW, RW.setR, RW.getR, RW.cntMid, RW.cntRM,
                RW.midInd, RW.rmInd, RW.doneInd, RW.obsCnt, hpc] <;>
              first
                | assumption
                | omega
                | (intros; trivial)
                | (intro hx; exact absurd hx (by decide))
                | (intro hx; have hzz := rm0 hx; omega)
                | (intro _; omega)
      | rCheckF i u hi hpc hsw =>
          simp only [NUM_READERS] at hi
          interval_cases i <;>
          · simp only [RW.getR] at hpc
            simp only [RW.cntMid, RW.cntRM, RW.midInd, RW.rmInd, RW.doneInd,
              RW.obsCnt, hpc] at count rm1 rm0 ocntA ocntB ocntC
            refine ⟨?_,?_,?_,?_,?_,?_,?_,?_,?_,?_,?_,?_,?_,?_,?_,?_,?_,?_,?_,?_⟩ <;>
              simp only [RW.setW, RW.getW, RW.setR, RW.getR, RW.cntMid, RW.cntRM,
                RW.midInd, RW.rmInd, RW.doneInd, RW.obsCnt, hpc] <;>
              first
                | assumption
                | omega
                | (intros; trivial)
                | (intro hx; exact absurd hx (by decide))
                | (intro hx; have hzz := rm0 hx; omega)
                | (intro _; omega)
      | rLock1 i u hi hpc hrm =>
          simp only [NUM_READERS] at hi
          interval_cases i <;>
          · simp only [RW.getR] at hpc
            simp only [RW.cntMid, RW.cntRM, RW.midInd, RW.rmInd, RW.doneInd,
              RW.obsCnt, hpc] at count rm1 rm0 ocntA ocntB ocntC
            have hz := rm0 hrm
            refine ⟨?_,?_,?_,?_,?_,?_,?_,?_,?_,?_,?_,?_,?_,?_,?_,?_,?_,?_,?_,?_⟩ <;>
              simp only [RW.setW, RW.getW, RW.setR, RW.getR, RW.cntMid, RW.cntRM,
                RW.midInd, RW.rmInd, RW.doneInd, RW.obsCnt, hpc] <;>
              first
                | assumption
                | omega
                | (intros; trivial)
                | (intro hx; exact absurd hx (by decide))
                | (intro _; omega)
      | rInc i u hi hpc =>
          simp only [NUM_READERS] at hi
          interval_cases i <;>
          · simp only [RW.getR] at hpc
            simp only [RW.cntMid, RW.cntRM, RW.midInd, RW.rmInd, RW.doneInd,
              RW.obsCnt, hpc] at count rm1 rm0 ocntA ocntB ocntC
            refine ⟨?_,?_,?_,?_,?_,?_,?_,?_,?_,?_,?_,?_,?_,?_,?_,?_,?_,?_,?_,?_⟩ <;>
              simp only [RW.setW, RW.getW, RW.setR, RW.getR, RW.cntMid, RW.cntRM,
                RW.midInd, RW.rmInd, RW.doneInd, RW.obsCnt, hpc] <;>
              first
                | assumption
                | omega
                | (intros; trivial)
                | (intro hx; exact absurd hx (by decide))
                | (intro hx; have hzz := rm0 hx; omega)
                | (intro _; omega)
      | rFirst i u hi hpc hone hwm =>
          simp only [NUM_READERS] at hi
          interval_cases i <;>
          · simp only [RW.getR] at hpc
            simp only [RW.cntMid, RW.cntRM, RW.midInd, RW.rmInd, RW.doneInd,
              RW.obsCnt, hpc] at count rm1 rm0 ocntA ocntB ocntC
            refine ⟨?_,?_,?_,?_,?_,?_,?_,?_,?_,?_,?_,?_,?_,?_,?_,?_,?_,?_,?_,?_⟩ <;>
              simp only [RW.setW, RW.getW, RW.setR, RW.getR, RW.cntMid, RW.cntRM,
                RW.midInd, RW.rmInd, RW.doneInd, RW.obsCnt, hpc] <;>
              first
                | assumption
                | omega
                | (intros; trivial)
                | (intro hx; exact absurd hx (by decide))
                | (intro hx; have hzz := rm0 hx; omega)
                | (intro _; omega)
                | (intro hx
                   first
                     | (rw [csA hx] at hwm; exact absurd hwm (by decide))
                     | (rw [csB hx] at hwm; exact absurd hwm (by decide))
                     | (rw [csC hx] at hwm; exact absurd hwm (by decide)))
      | rNotFirst i u hi hpc hone =>
          simp only [NUM_READERS] at hi
          interval_cases i <;>
          · simp only [RW.getR] at hpc
            simp only [RW.cntMid, RW.cntRM, RW.midInd, RW.rmInd, RW.doneInd,
              RW.obsCnt, hpc] at count rm1 rm0 ocntA ocntB ocntC
            have hkey : t.writerMutex = RW.WM.rheld := by
              by_cases hA : RW.inHold t.rA.pc = true
              · exact holdA hA
              · by_cases hB : RW.inHold t.rB.pc = true
                · exact holdB hB
                · by_cases hC : RW.inHold t.rC.pc = true
                  · exact holdC hC
                  · exfalso
                    have m1 := rw_mid_le_rm t.rA.pc (by simpa using hA)
                    have m2 := rw_mid_le_rm t.rB.pc (by simpa using hB)
                    have m3 := rw_mid_le_rm t.rC.pc (by simpa using hC)
                    simp only [hpc, RW.midInd, RW.rmInd] at m1 m2 m3
                    omega
            refine ⟨?_,?_,?_,?_,?_,?_,?_,?_,?_,?_,?_,?_,?_,?_,?_,?_,?_,?_,?_,?_⟩ <;>
              simp only [RW.setW, RW.getW, RW.setR, RW.getR, RW.cntMid, RW.cntRM,
                RW.midInd, RW.rmInd, RW.doneInd, RW.obsCnt, hpc] <;>
              first
                | assumption
                | omega
                | (intros; trivial)
                | (intro _; exact hkey)
                | (intro hx; exact absurd hx (by decide))
                | (intro hx; have hzz := rm0 hx; omega)
                | (intro _; omega)
      | rUnlock1 i u hi hpc =>
          simp only [NUM_READERS] at hi
          interval_cases i <;>
          · simp only [RW.getR] at hpc
            simp only [RW.cntMid, RW.cntRM, RW.midInd, RW.rmInd, RW.doneInd,
              RW.obsCnt, hpc] at count rm1 rm0 ocntA ocntB ocntC
            refine ⟨?_,?_,?_,?_,?_,?_,?_,?_,?_,?_,?_,?_,?_,?_,?_,?_,?_,?_,?_,?_⟩ <;>
              simp only [RW.setW, RW.getW, RW.setR, RW.getR, RW.cntMid, RW.cntRM,
                RW.midInd, RW.rmInd, RW.doneInd, RW.obsCnt, hpc] <;>
              first
                | assumption
                | omega
                | (intros; trivial)
                | (intro hx; exact absurd hx (by decide))
                | (intro _; omega)
                | (intro _; first
                    | exact holdA (by rw [hpc] <;> decide)
                    | exact holdB (by rw [hpc] <;> decide)
                    | exact holdC (by rw [hpc] <;> decide))
      | rRead0 i u hi hpc =>
          simp only [NUM_READERS] at hi
          interval_cases i <;>
          · simp only [RW.getR] at hpc
            simp only [RW.cntMid, RW.cntRM, RW.midInd, RW.rmInd, RW.doneInd,
              RW.obsCnt, hpc] at count rm1 rm0 ocntA ocntB ocntC
            have hrh : t.writerMutex = RW.WM.rheld := by
              first
                | exact holdA (by rw [hpc] <;> decide)
                | exact holdB (by rw [hpc] <;> decide)
                | exact holdC (by rw [hpc] <;> decide)
            have hbe : t.buffer0 = t.buffer1 := by
              apply bufEq <;>
                (intro hx
                 first
                   | (have e2 := csA (by rw [hx] <;> decide); rw [hrh] at e2;
                      exact absurd e2 (by decide))
                   | (have e2 := csB (by rw [hx] <;> decide); rw [hrh] at e2;
                      exact absurd e2 (by decide))
                   | (have e2 := csC (by rw [hx] <;> decide); rw [hrh] at e2;
                      exact absurd e2 (by decide)))
            refine ⟨?_,?_,?_,?_,?_,?_,?_,?_,?_,?_,?_,?_,?_,?_,?_,?_,?_,?_,?_,?_⟩ <;>
              simp only [RW.setW, RW.getW, RW.setR, RW.getR, RW.cntMid, RW.cntRM,
                RW.midInd, RW.rmInd, RW.doneInd, RW.obsCnt, hpc] <;>
              first
                | assumption
                | omega
                | (intros; trivial)
                | (intro hx; exact absurd hx (by decide))
                | (intro hx; have hzz := rm0 hx; omega)
                | (intro _; omega)
                | (intro _; exact hrh)
                | (intro _; exact ⟨rfl, hbe⟩)
      | rRead1 i u hi hpc =>
          simp only [NUM_READERS] at hi
          interval_cases i <;>
          · simp only [RW.getR] at hpc
            simp only [RW.cntMid, RW.cntRM, RW.midInd, RW.rmInd, RW.doneInd,
              RW.obsCnt, hpc] at count rm1 rm0 ocntA ocntB ocntC
            refine ⟨?_,?_,?_,?_,?_,?_,?_,?_,?_,?_,?_,?_,?_,?_,?_,?_,?_,?_,?_,?_⟩ <;>
              simp only [RW.setW, RW.getW, RW.setR, RW.getR, RW.cntMid, RW.cntRM,
                RW.midInd, RW.rmInd, RW.doneInd, RW.obsCnt, List.filter_append,
                List.filter_cons, List.filter_nil, List.length_append,
                List.length_cons, List.length_nil, hpc,
                (show ((0:Nat) == 0) = true from rfl),
                (show ((0:Nat) == 1) = false from rfl),
                (show ((0:Nat) == 2) = false from rfl),
                (show ((1:Nat) == 0) = false from rfl),
                (show ((1:Nat) == 1) = true from rfl),
                (show ((1:Nat) == 2) = false from rfl),
                (show ((2:Nat) == 0) = false from rfl),
                (show ((2:Nat) == 1) = false from rfl),
                (show ((2:Nat) == 2) = true from rfl), if_true, if_false] <;>
              first
                | assumption
                | omega
                | (intros; trivial)
                | (intro hx; exact absurd hx (by decide))
                | (intro hx; have hzz := rm0 hx; omega)
                | (intro _; omega)
                | (intro _; first
                    | exact holdA (by rw [hpc] <;> decide)
                    | exact holdB (by rw [hpc] <;> decide)
                    | exact holdC (by rw [hpc] <;> decide))
                | (intro e he
                   rcases List.mem_append.mp he with hin | hin
                   · exact obsOk e hin
                   · simp only [List.mem_singleton] at hin
                     subst hin
                     first
                       | exact ((r6A hpc).1.trans (r6A hpc).2)
                       | exact ((r6B hpc).1.trans (r6B hpc).2)
                       | exact ((r6C hpc).1.trans (r6C hpc).2))
      | rLock2 i u hi hpc hrm =>
          simp only [NUM_READERS] at hi
          interval_cases i <;>
          · simp only [RW.getR] at hpc
            simp only [RW.cntMid, RW.cntRM, RW.midInd, RW.rmInd, RW.doneInd,
              RW.obsCnt, hpc] at count rm1 rm0 ocntA ocntB ocntC
            have hz := rm0 hrm
            refine ⟨?_,?_,?_,?_,?_,?_,?_,?_,?_,?_,?_,?_,?_,?_,?_,?_,?_,?_,?_,?_⟩ <;>
              simp only [RW.setW, RW.getW, RW.setR, RW.getR, RW.cntMid, RW.cntRM,
                RW.midInd, RW.rmInd, RW.doneInd, RW.obsCnt, hpc] <;>
              first
                | assumption
                | omega
                | (intros; trivial)
                | (intro hx; exact absurd hx (by decide))
                | (intro _; omega)
                | (intro _; first
                    | exact holdA (by rw [hpc] <;> decide)
                    | exact holdB (by rw [hpc] <;> decide)
                    | exact holdC (by rw [hpc] <;> decide))
      | rDec i u hi hpc =>
          simp only [NUM_READERS] at hi
          interval_cases i <;>
          · simp only [RW.getR] at hpc
            simp only [RW.cntMid, RW.cntRM, RW.midInd, RW.rmInd, RW.doneInd,
              RW.obsCnt, hpc] at count rm1 rm0 ocntA ocntB ocntC
            refine ⟨?_,?_,?_,?_,?_,?_,?_,?_,?_,?_,?_,?_,?_,?_,?_,?_,?_,?_,?_,?_⟩ <;>
              simp only [RW.setW, RW.getW, RW.setR, RW.getR, RW.cntMid, RW.cntRM,
                RW.midInd, RW.rmInd, RW.doneInd, RW.obsCnt, hpc] <;>
              first
                | assumption
                | omega
                | (intros; trivial)
                | (intro hx; exact absurd hx (by decide))
                | (intro hx; have hzz := rm0 hx; omega)
                | (intro _; omega)
                | (intro _; first
                    | exact holdA (by rw [hpc] <;> decide)
                    | exact holdB (by rw [hpc] <;> decide)
                    | exact holdC (by rw [hpc] <;> decide))
      | rLast i u hi hpc hzero =>
          simp only [NUM_READERS] at hi
          interval_cases i <;>
          · simp only [RW.getR] at hpc
            simp only [RW.cntMid, RW.cntRM, RW.midInd, RW.rmInd, RW.doneInd,
              RW.obsCnt, hpc] at count rm1 rm0 ocntA ocntB ocntC
            have hrh : t.writerMutex = RW.WM.rheld := by
              first
                | exact holdA (by rw [hpc] <;> decide)
                | exact holdB (by rw [hpc] <;> decide)
                | exact holdC (by rw [hpc] <;> decide)
            refine ⟨?_,?_,?_,?_,?_,?_,?_,?_,?_,?_,?_,?_,?_,?_,?_,?_,?_,?_,?_,?_⟩ <;>
              simp only [RW.setW, RW.getW, RW.setR, RW.getR, RW.cntMid, RW.cntRM,
                RW.midInd, RW.rmInd, RW.doneInd, RW.obsCnt, hpc] <;>
              first
                | assumption
                | omega
                | (intros; trivial)
                | (intro hx; exact absurd hx (by decide))
                | (intro hx; have hzz := rm0 hx; omega)
                | (intro _; omega)
                | (intro hx; have e2 := csA hx; rw [hrh] at e2; exact absurd e2 (by decide))
                | (intro hx; have e2 := csB hx; rw [hrh] at e2; exact absurd e2 (by decide))
                | (intro hx; have e2 := csC hx; rw [hrh] at e2; exact absurd e2 (by decide))
                | (intro hx; exfalso; have hk := rw_hold_mid_rm _ hx;
                   simp only [RW.midInd, RW.rmInd] at hk; omega)
      | rNotLast i u hi hpc hzero =>
          simp only [NUM_READERS] at hi
          interval_cases i <;>
          · simp only [RW.getR] at hpc
            simp only [RW.cntMid, RW.cntRM, RW.midInd, RW.rmInd, RW.doneInd,
              RW.obsCnt, hpc] at count rm1 rm0 ocntA ocntB ocntC
            refine ⟨?_,?_,?_,?_,?_,?_,?_,?_,?_,?_,?_,?_,?_,?_,?_,?_,?_,?_,?_,?_⟩ <;>
              simp only [RW.setW, RW.getW, RW.setR, RW.getR, RW.cntMid, RW.cntRM,
                RW.midInd, RW.rmInd, RW.doneInd, RW.obsCnt, hpc] <;>
              first
                | assumption
                | omega
                | (intros; trivial)
                | (intro hx; exact absurd hx (by decide))
                | (intro hx; have hzz := rm0 hx; omega)
                | (intro _; omega)
      | rUnlock2 i u hi hpc =>
          simp only [NUM_READERS] at hi
          interval_cases i <;>
          · simp only [RW.getR] at hpc
            simp only [RW.cntMid, RW.cntRM, RW.midInd, RW.rmInd, RW.doneInd,
              RW.obsCnt, hpc] at count rm1 rm0 ocntA ocntB ocntC
            refine ⟨?_,?_,?_,?_,?_,?_,?_,?_,?_,?_,?_,?_,?_,?_,?_,?_,?_,?_,?_,?_⟩ <;>
              simp only [RW.setW, RW.getW, RW.setR, RW.getR, RW.cntMid, RW.cntRM,
                RW.midInd, RW.rmInd, RW.doneInd, RW.obsCnt, hpc] <;>
              first
                | assumption
                | omega
                | (intros; trivial)
                | (intro hx; exact absurd hx (by decide))
                | (intro _; omega)

/-- The per-reader observation-count invariant holds in every reachable
state of the unsynchronised program. -/
theorem unsync_inv {s : Unsync.St} (h : Unsync.Reach s) : Unsync.Inv s := by
  induction h with
  | init => exact ⟨rfl, rfl, rfl⟩
  | step l t u ht hst ih =>
      obtain ⟨ocntA, ocntB, ocntC⟩ := ih
      cases hst with
      | wWrite0 i u hi hpc hit =>
          simp only [NUM_WRITERS] at hi
          interval_cases i <;>
            exact ⟨ocntA, ocntB, ocntC⟩
      | wWrite1 i u hi hpc =>
          simp only [NUM_WRITERS] at hi
          interval_cases i <;>
            exact ⟨ocntA, ocntB, ocntC⟩
      | wFinish i u hi hpc hit =>
          simp only [NUM_WRITERS] at hi
          interval_cases i <;>
            exact ⟨ocntA, ocntB, ocntC⟩
      | flip u hwa hwb hwc =>
          exact ⟨ocntA, ocntB, ocntC⟩
      | rCheckT i u hi hpc hsw =>
          simp only [NUM_READERS] at hi
          interval_cases i <;>
          · simp only [Unsync.getR] at hpc
            simp only [Unsync.obsCnt, Unsync.doneInd, hpc] at ocntA ocntB ocntC
            refine ⟨?_, ?_, ?_⟩ <;>
              simp only [Unsync.setR, Unsync.getR, Unsync.obsCnt, Unsync.doneInd] <;>
              assumption
      | rCheckF i u hi hpc hsw =>
          simp only [NUM_READERS] at hi
          interval_cases i <;>
          · simp only [Unsync.getR] at hpc
            simp only [Unsync.obsCnt, Unsync.doneInd, hpc] at ocntA ocntB ocntC
            refine ⟨?_, ?_, ?_⟩ <;>
              simp only [Unsync.setR, Unsync.getR, Unsync.obsCnt, Unsync.doneInd] <;>
              assumption
      | rRead0 i u hi hpc =>
          simp only [NUM_READERS] at hi
          interval_cases i <;>
          · simp only [Unsync.getR] at hpc
            simp only [Unsync.obsCnt, Unsync.doneInd, hpc] at ocntA ocntB ocntC
            refine ⟨?_, ?_, ?_⟩ <;>
              simp only [Unsync.setR, Unsync.getR, Unsync.obsCnt, Unsync.doneInd] <;>
              assumption
      | rRead1 i u hi hpc =>
          simp only [NUM_READERS] at hi
          interval_cases i <;>
          · simp only [Unsync.getR] at hpc
            simp only [Unsync.obsCnt, Unsync.doneInd, hpc] at ocntA ocntB ocntC
            refine ⟨?_, ?_, ?_⟩ <;>
              simp only [Unsync.setR, Unsync.getR, Unsync.obsCnt, Unsync.doneInd,
                List.filter_append, List.filter_cons, List.filter_nil,
                List.length_append, List.length_cons, List.length_nil,
                (show ((0 : Nat) == 0) = true from rfl),
                (show ((0 : Nat) == 1) = false from rfl),
                (show ((0 : Nat) == 2) = false from rfl),
                (show ((1 : Nat) == 0) = false from rfl),
                (show ((1 : Nat) == 1) = true from rfl),
                (show ((1 : Nat) == 2) = false from rfl),
                (show ((2 : Nat) == 0) = false from rfl),
                (show ((2 : Nat) == 1) = false from rfl),
                (show ((2 : Nat) == 2) = true from rfl),
                Bool.false_eq_true, if_true, if_false] <;>
              omega

/-- The three-step trace of the unsynchronised program in which reader 0
performs one full read reaches its final state. -/
theorem unsync_trace_reach : Unsync.Reach Unsync.uS3 :=
  Unsync.Reach.step _ _ _
    (Unsync.Reach.step _ _ _
      (Unsync.Reach.step _ _ _ Unsync.Reach.init
        (Unsync.Step.rCheckT 0 Unsync.init (by decide) rfl rfl))
      (Unsync.Step.rRead0 0 Unsync.uS1 (by decide) rfl))
    (Unsync.Step.rRead1 0 Unsync.uS2 (by decide) rfl)

/-- The three-step prefix of the synchronised readers/writers trace in
which reader 0 has incremented `readCount` to 1 is reachable. -/
theorem rw_reach3 : RW.Reach RW.rwS3 :=
  RW.Reach.step _ _ _
    (RW.Reach.step _ _ _
      (RW.Reach.step _ _ _ RW.Reach.init
        (RW.Step.rCheckT 0 RW.init (by decide) rfl rfl))
      (RW.Step.rLock1 0 RW.rwS1 (by decide) rfl rfl))
    (RW.Step.rInc 0 RW.rwS2 (by decide) rfl)

/-- The eleven-step trace in which reader 0 of the synchronised
readers/writers programs performs one full read reaches its final
state, whose observation log is nonempty. -/
theorem rw_trace_reach : RW.Reach RW.rwS11 :=
  RW.Reach.step _ _ _
    (RW.Reach.step _ _ _
      (RW.Reach.step _ _ _
        (RW.Reach.step _ _ _
          (RW.Reach.step _ _ _
            (RW.Reach.step _ _ _
              (RW.Reach.step _ _ _
                (RW.Reach.step _ _ _ rw_reach3
                  (RW.Step.rFirst 0 RW.rwS3 (by decide) rfl rfl rfl))
                (RW.Step.rUnlock1 0 RW.rwS4 (by decide) rfl))
              (RW.Step.rRead0 0 RW.rwS5 (by decide) rfl))
            (RW.Step.rRead1 0 RW.rwS6 (by decide) rfl))
          (RW.Step.rLock2 0 RW.rwS7 (by decide) rfl rfl))
        (RW.Step.rDec 0 RW.rwS8 (by decide) rfl))
      (RW.Step.rLast 0 RW.rwS9 (by decide) rfl rfl))
    (RW.Step.rUnlock2 0 RW.rwS10 (by decide) rfl)

/-- Helper: the four conjuncts of the readers/writers observation-count
invariant bound every counter by one. -/
theorem rw_done_le_one : ∀ pc : RW.RPc, RW.doneInd pc ≤ 1 := by
  intro pc; cases pc <;> decide

/-- Helper: the unsynchronised counter is also bounded by one. -/
theorem unsync_done_le_one : ∀ pc : Unsync.RPc, Unsync.doneInd pc ≤ 1 := by
  intro pc; cases pc <;> decide

/-- Claim C2: in the synchronised readers/writers programs (mutex and
semaphore variants, both embedded by `RW.Step`), every completed read
observes equal values in the two buffer fields: every entry of the
observation log of every reachable state has its two recorded buffer
values equal. -/
theorem c2_synchronized_reads_consistent (s : RW.St) (e : Nat × Int × Int)
    (hr : RW.Reach s) (he : e ∈ s.obs) : e.2.1 = e.2.2 :=
  (rw_inv hr).obsOk e he

/-- Witness for claim C2: the eleven-step trace of one full read by
reader 0 ends with the observation (0, 0, 0), whose two recorded buffer
values are equal. -/
theorem c2_synchronized_reads_consistent_witness :
    ((0 : Nat), (0 : Int), (0 : Int)) ∈ RW.rwS11.obs ∧
    (((0 : Nat), (0 : Int), (0 : Int)) : Nat × Int × Int).2.1 =
      (((0 : Nat), (0 : Int), (0 : Int)) : Nat × Int × Int).2.2 :=
  ⟨by decide,
   c2_synchronized_reads_consistent RW.rwS11 ((0 : Nat), (0 : Int), (0 : Int))
     rw_trace_reach (by decide)⟩

/-- Claim C3: in every reachable state of both backends the number of
successful dequeues is at most the number of successful enqueues, and
any monitor-backend state in which all five workers have finished has
exactly 75 enqueues, 70 dequeues and 5 filled slots. -/
theorem c3_conservation (s : Monitor.St) (t : Sem.St)
    (hs : Monitor.Reach s) (ht : Sem.Reach t) :
    s.deqLog.length ≤ s.enqLog.length ∧
    t.deqCount ≤ t.enqCount ∧
    (Monitor.allDone s →
      s.enqLog.length = NUM_PRODUCERS * PRODUCTION_LIMIT ∧
      s.deqLog.length = NUM_CONSUMERS * CONSUMPTION_LIMIT ∧
      Monitor.fill s = 5) := by
  have invs := monitor_inv hs
  have invt := sem_inv ht
  refine ⟨invs.h_le, ?_, ?_⟩
  · have hf := invt.h_filled
    omega
  · intro hd
    obtain ⟨h1, h2, h3, h4, h5⟩ := hd
    have hp := invs.h_psum
    have hc := invs.h_csum
    have hl := invs.h_le
    simp only [PRODUCTION_LIMIT, CONSUMPTION_LIMIT] at h1 h2 h3 h4 h5
    simp only [NUM_PRODUCERS, NUM_CONSUMERS, PRODUCTION_LIMIT, CONSUMPTION_LIMIT,
      Monitor.fill]
    refine ⟨?_, ?_, ?_⟩ <;> omega

set_option maxRecDepth 1000000 in
/-- Witness for claim C3: the 145-action schedule of the configured run
ends with all workers done, 75 items enqueued, 70 dequeued and 5 slots
filled. -/
theorem c3_conservation_witness :
    Monitor.finalSt.enqLog.length = NUM_PRODUCERS * PRODUCTION_LIMIT ∧
    Monitor.finalSt.deqLog.length = NUM_CONSUMERS * CONSUMPTION_LIMIT ∧
    Monitor.fill Monitor.finalSt = 5 := by
  have h := c3_conservation Monitor.finalSt Sem.init
    (monitor_run_reach Monitor.fullSched Monitor.Reach.init) Sem.Reach.init
  exact h.2.2 ⟨by decide, by decide, by decide, by decide, by decide⟩

/-- Claim C5: in every reachable monitor-backend state the sequence of
dequeued values equals the prefix of the sequence of enqueued values of
the same length (insertion order = consumption order), and consequently
the consumed items of any single producer form a prefix of that
producer's enqueue sequence, preserving its relative order. -/
theorem c5_fifo_preservation (s : Monitor.St) (hs : Monitor.Reach s) :
    s.deqLog.map Prod.snd = (s.enqLog.map Prod.snd).take s.deqLog.length ∧
    ∀ p : Nat,
      ((s.enqLog.take s.deqLog.length).filter fun e => e.1 == p) <+:
        (s.enqLog.filter fun e => e.1 == p) := by
  refine ⟨(monitor_inv hs).h_order, fun p => ?_⟩
  exact ⟨(s.enqLog.drop s.deqLog.length).filter fun e => e.1 == p,
    by rw [← List.filter_append, List.take_append_drop]⟩

/-- Witness for claim C5 at the three-action state in which producers 0
and 1 have each enqueued once and consumer 0 has dequeued once. -/
theorem c5_fifo_preservation_witness :
    Monitor.shortSt.deqLog.map Prod.snd =
      (Monitor.shortSt.enqLog.map Prod.snd).take Monitor.shortSt.deqLog.length ∧
    ((Monitor.shortSt.enqLog.take Monitor.shortSt.deqLog.length).filter
        fun e => e.1 == 0) <+:
      (Monitor.shortSt.enqLog.filter fun e => e.1 == 0) := by
  have h := c5_fifo_preservation Monitor.shortSt
    (monitor_run_reach [Monitor.Lbl.prod 0, Monitor.Lbl.prod 1, Monitor.Lbl.cons 0]
      Monitor.Reach.init)
  exact ⟨h.1, h.2 0⟩

/-- Claim C7 (amended): the shipped configuration satisfies
numProducers × productionLimit ≥ numConsumers × consumptionLimit, but
neither `main` validates this at configuration time: both exit statuses
are completely insensitive to the production and consumption limits, so
a starving configuration is accepted rather than rejected. -/
theorem c7_no_config_validation :
    theConfig.numConsumers * theConfig.consumptionLimit ≤
      theConfig.numProducers * theConfig.productionLimit ∧
    (∀ (cfg : PCConfig) (pr : MonPrims) (a b : Nat),
      monitorMain { cfg with productionLimit := a, consumptionLimit := b } pr =
        monitorMain cfg pr) ∧
    (∀ (cfg : PCConfig) (qr : SemPrims) (a b : Nat),
      semMain { cfg with productionLimit := a, consumptionLimit := b } qr =
        semMain cfg qr) :=
  ⟨by decide, fun _ _ _ _ => rfl, fun _ _ _ _ => rfl⟩

/-- Counterexample for claim C7 as stated: a configuration in which the
consumers demand more items than the producers supply (1 × 1 < 2 × 35)
is not rejected — both `main` models run it to exit status 0. -/
theorem c7_starving_config_accepted :
    mismatchConfig.numProducers * mismatchConfig.productionLimit <
      mismatchConfig.numConsumers * mismatchConfig.consumptionLimit ∧
    monitorMain mismatchConfig allOkMonPrims = 0 ∧
    semMain mismatchConfig allOkSemPrims = 0 :=
  ⟨by decide, by decide, by decide⟩

/-- Claim C8 (amended): the monitor-backend `main` returns 0 exactly
when every primitive call succeeds and −1 otherwise; the
semaphore-backend `main` returns 0 exactly when every thread creation
and join succeeds, but its exit status is completely insensitive to the
outcomes of the three `sem_init` calls, which are never checked. -/
theorem c8_exit_status (pr : MonPrims) (qr : SemPrims) :
    (monitorMain theConfig pr = 0 ↔ monAllOk theConfig pr) ∧
    (monitorMain theConfig pr ≠ 0 → monitorMain theConfig pr = -1) ∧
    (semMain theConfig qr = 0 ↔ semThreadsOk theConfig qr) ∧
    (∀ b1 b2 b3 : Bool,
      semMain theConfig
          { qr with semEmptyInitOk := b1, semFilledInitOk := b2,
                    semSemaphoreInitOk := b3 } =
        semMain theConfig qr) := by
  refine ⟨?_, ?_, ?_, fun b1 b2 b3 => rfl⟩
  · simp only [monitorMain, monAllOk]
    split_ifs <;> simp_all
  · simp only [monitorMain]
    split_ifs <;> simp_all
  · simp only [semMain, semThreadsOk]
    split_ifs <;> simp_all

/-- Counterexample for claim C8 as stated: with the first `sem_init`
failing and everything else succeeding, the semaphore-backend `main`
still exits with status 0. -/
theorem c8_unchecked_sem_init_counterexample :
    semInitFailPrims.semEmptyInitOk = false ∧
    semMain theConfig semInitFailPrims = 0 :=
  ⟨rfl, by decide⟩

/-- Claim C9: in every reachable state of the synchronised and the
unsynchronised readers/writers programs, every reader has recorded at
most one observation; a reader that finished on the skip path (writing
flag already false) recorded none, and a reader that finished on the
read path recorded exactly one. -/
theorem c9_reader_single_read (s : RW.St) (u : Unsync.St) (i j : Nat)
    (hs : RW.Reach s) (hu : Unsync.Reach u)
    (hi : i < NUM_READERS) (hj : j < NUM_READERS) :
    (RW.obsCnt s i ≤ 1 ∧
      ((RW.getR s i).pc = .rSkipDone → RW.obsCnt s i = 0) ∧
      ((RW.getR s i).pc = .rDone → RW.obsCnt s i = 1)) ∧
    (Unsync.obsCnt u j ≤ 1 ∧
      ((Unsync.getR u j).pc = .uSkipDone → Unsync.obsCnt u j = 0) ∧
      ((Unsync.getR u j).pc = .uDone → Unsync.obsCnt u j = 1)) := by
  have invs := rw_inv hs
  have invu := unsync_inv hu
  simp only [NUM_READERS] at hi hj
  constructor
  · interval_cases i <;>
    · refine ⟨?_, ?_, ?_⟩
      · first
          | (rw [invs.ocntA]; exact rw_done_le_one _)
          | (rw [invs.ocntB]; exact rw_done_le_one _)
          | (rw [invs.ocntC]; exact rw_done_le_one _)
      · intro hx
        simp only [RW.getR] at hx
        first
          | (rw [invs.ocntA, hx] <;> decide)
          | (rw [invs.ocntB, hx] <;> decide)
          | (rw [invs.ocntC, hx] <;> decide)
      · intro hx
        simp only [RW.getR] at hx
        first
          | (rw [invs.ocntA, hx] <;> decide)
          | (rw [invs.ocntB, hx] <;> decide)
          | (rw [invs.ocntC, hx] <;> decide)
  · interval_cases j <;>
    · refine ⟨?_, ?_, ?_⟩
      · first
          | (rw [invu.ocntA]; exact unsync_done_le_one _)
          | (rw [invu.ocntB]; exact unsync_done_le_one _)
          | (rw [invu.ocntC]; exact unsync_done_le_one _)
      · intro hx
        simp only [Unsync.getR] at hx
        first
          | (rw [invu.ocntA, hx] <;> decide)
          | (rw [invu.ocntB, hx] <;> decide)
          | (rw [invu.ocntC, hx] <;> decide)
      · intro hx
        simp only [Unsync.getR] at hx
        first
          | (rw [invu.ocntA, hx] <;> decide)
          | (rw [invu.ocntB, hx] <;> decide)
          | (rw [invu.ocntC, hx] <;> decide)

/-- Witness for claim C9: after the concrete single-read traces, reader
0 of each program has recorded exactly one observation. -/
theorem c9_reader_single_read_witness :
    RW.obsCnt RW.rwS11 0 = 1 ∧ Unsync.obsCnt Unsync.uS3 0 = 1 := by
  have h := c9_reader_single_read RW.rwS11 Unsync.uS3 0 0
    rw_trace_reach unsync_trace_reach (by decide) (by decide)
  exact ⟨h.1.2.2 (by decide), h.2.2.2 (by decide)⟩

/-- Claim C10: `take` is non-destructive: it returns the value at the
read cursor, advances the cursor modulo the capacity, and leaves every
slot of the buffer and the write cursor unchanged. -/
theorem c10_take_frame (ch : Chan) :
    (Chan.take ch).1 = ch.buffer ch.removeAt ∧
    (Chan.take ch).2.removeAt = (ch.removeAt + 1) % BUFFER_SIZE ∧
    (Chan.take ch).2.buffer = ch.buffer ∧
    (Chan.take ch).2.insertAt = ch.insertAt :=
  ⟨rfl, rfl, rfl, rfl⟩

/-- Claim C1 (amended): every reachable monitor-backend state holds at
most capacity − 1 filled slots and its dequeue only fires with at
least one filled slot; every reachable semaphore-backend state keeps
the fill level at most the full capacity (not capacity − 1), and its
`take` action only fires when at least one slot is filled. -/
theorem c1_occupancy_bounds (s : Monitor.St) (t : Sem.St)
    (hs : Monitor.Reach s) (ht : Sem.Reach t) :
    Monitor.fill s ≤ BUFFER_SIZE - 1 ∧
    (∀ (c : Nat) (s' : Monitor.St), Monitor.Step (.cons c) s s' →
      1 ≤ Monitor.fill s) ∧
    Sem.fill t ≤ BUFFER_SIZE ∧
    (∀ (j : Nat) (u : Sem.St), Sem.Step (.cons j) t u →
      u.deqCount ≠ t.deqCount → 0 < Sem.fill t) := by
  have invs := monitor_inv hs
  have invt := sem_inv ht
  refine ⟨?_, ?_, ?_, ?_⟩
  · have h1 := invs.h_cap
    have h2 := invs.h_le
    simp only [Monitor.fill]
    omega
  · intro c s' hstep
    cases hstep with
    | cons c' w hc hlim hguard =>
        have h1 := invs.h_cursor
        have h2 := invs.h_rem
        have h3 := invs.h_le
        simp only [BUFFER_SIZE] at h1 h2
        simp only [Monitor.fill]
        omega
  · have h := invt.h_empty
    simp only [Sem.fill]
    omega
  · intro j u hustep
    cases hustep with
    | cWaitFilled c' w hc hpc hit hfi =>
        simp only [NUM_CONSUMERS] at hc
        interval_cases j <;>
        · simp only [Sem.setC]
          intro h
          exact absurd rfl h
    | cWaitSem c' w hc hpc hsem =>
        simp only [NUM_CONSUMERS] at hc
        interval_cases j <;>
        · simp only [Sem.setC]
          intro h
          exact absurd rfl h
    | cTake c' w hc hpc =>
        simp only [NUM_CONSUMERS] at hc
        interval_cases j <;>
        · simp only [Sem.getC] at hpc
          intro _
          have hf := invt.h_filled
          simp only [hpc, Sem.cPre] at hf
          simp only [Sem.fill]
          omega
    | cPostSem c' w hc hpc =>
        simp only [NUM_CONSUMERS] at hc
        interval_cases j <;>
        · simp only [Sem.setC]
          intro h
          exact absurd rfl h
    | cPostEmpty c' w hc hpc =>
        simp only [NUM_CONSUMERS] at hc
        interval_cases j <;>
        · simp only [Sem.setC]
          intro h
          exact absurd rfl h

set_option maxRecDepth 1000000 in
/-- Witness for claim C1: concrete instances of every conjunct — the
one-enqueue monitor state has at most nine and at least one filled
slot, the fully loaded semaphore state respects the capacity bound,
and the state in which consumer 0 is about to `take` has a positive
fill level. -/
theorem c1_occupancy_bounds_witness :
    Monitor.fill Monitor.oneSt ≤ BUFFER_SIZE - 1 ∧
    1 ≤ Monitor.fill Monitor.oneSt ∧
    Sem.fill Sem.fullSt ≤ BUFFER_SIZE ∧ 0 < Sem.fill Sem.atTakeSt := by
  have h1 := c1_occupancy_bounds Monitor.oneSt Sem.fullSt
    (monitor_run_reach [Monitor.Lbl.prod 0] Monitor.Reach.init)
    (sem_run_reach Sem.tenSched Sem.Reach.init)
  have h2 := c1_occupancy_bounds Monitor.oneSt Sem.atTakeSt
    (monitor_run_reach [Monitor.Lbl.prod 0] Monitor.Reach.init)
    (sem_run_reach (Sem.tenSched ++ [Sem.Lbl.cons 0, Sem.Lbl.cons 0]) Sem.Reach.init)
  refine ⟨h1.1, ?_, h1.2.2.1, ?_⟩
  · exact h1.2.1 0 (Monitor.dequeue 0 Monitor.oneSt)
      (Monitor.Step.cons 0 Monitor.oneSt (by decide) (by decide) (by decide))
  · exact h2.2.2.2 0
      (Sem.setC
        { Sem.atTakeSt with
          chan := (Chan.take Sem.atTakeSt.chan).2
          deqCount := Sem.atTakeSt.deqCount + 1 }
        ⟨.b3, (Sem.getC Sem.atTakeSt 0).iters, (Chan.take Sem.atTakeSt.chan).1⟩ 0)
      (Sem.Step.cTake 0 Sem.atTakeSt (by decide) (by decide)) (by decide)

set_option maxRecDepth 1000000 in
/-- Counterexample for claim C1 as stated: in the semaphore backend the
state after fifty producer actions is reachable and holds ten filled
slots — the full capacity, exceeding capacity − 1. -/
theorem c1_semaphore_full_counterexample :
    Sem.Reach Sem.fullSt ∧ Sem.fill Sem.fullSt = BUFFER_SIZE ∧
    ¬ (Sem.fill Sem.fullSt ≤ BUFFER_SIZE - 1) :=
  ⟨sem_run_reach Sem.tenSched Sem.Reach.init, by decide, by decide⟩

/-- Helper for claim C4: each producer action of the semaphore backend
performs exactly the step prescribed by its program counter — first
take an `empty` token, then the mutual-exclusion token, then mutate the
channel, then release exclusion, then post `filled`. -/
theorem sem_producer_shape (p : Nat) (s s' : Sem.St)
    (hstep : Sem.Step (.prod p) s s') :
    ((Sem.getP s p).pc = .a0 →
      s'.empty + 1 = s.empty ∧ s'.filled = s.filled ∧
      s'.semaphore = s.semaphore ∧ s'.chan = s.chan ∧
      (Sem.getP s' p).pc = .a1) ∧
    ((Sem.getP s p).pc = .a1 →
      s'.semaphore + 1 = s.semaphore ∧ s'.empty = s.empty ∧
      s'.filled = s.filled ∧ s'.chan = s.chan ∧ (Sem.getP s' p).pc = .a2) ∧
    ((Sem.getP s p).pc = .a2 →
      s'.chan = Chan.append s.globalProductionCounter s.chan ∧
      s'.empty = s.empty ∧ s'.filled = s.filled ∧
      s'.semaphore = s.semaphore ∧ (Sem.getP s' p).pc = .a3) ∧
    ((Sem.getP s p).pc = .a3 →
      s'.semaphore = s.semaphore + 1 ∧ s'.empty = s.empty ∧
      s'.filled = s.filled ∧ s'.chan = s.chan ∧ (Sem.getP s' p).pc = .a4) ∧
    ((Sem.getP s p).pc = .a4 →
      s'.filled = s.filled + 1 ∧ s'.empty = s.empty ∧
      s'.semaphore = s.semaphore ∧ s'.chan = s.chan ∧
      (Sem.getP s' p).pc = .a0) := by
  cases hstep with
  | pWaitEmpty p' w hp hpc hit hem =>
      simp only [NUM_PRODUCERS] at hp
      interval_cases p <;>
      · simp only [Sem.getP] at hpc
        refine ⟨?_, ?_, ?_, ?_, ?_⟩ <;> intro hx <;>
          simp only [Sem.getP, Sem.getC] at hx <;>
          first
            | (rw [hpc] at hx; exact absurd hx (by decide))
            | (refine ⟨?_, ?_, ?_, ?_, ?_⟩ <;>
                simp only [Sem.setP, Sem.getP] <;>
                first | rfl | omega)
  | pWaitSem p' w hp hpc hsem =>
      simp only [NUM_PRODUCERS] at hp
      interval_cases p <;>
      · simp only [Sem.getP] at hpc
        refine ⟨?_, ?_, ?_, ?_, ?_⟩ <;> intro hx <;>
          simp only [Sem.getP, Sem.getC] at hx <;>
          first
            | (rw [hpc] at hx; exact absurd hx (by decide))
            | (refine ⟨?_, ?_, ?_, ?_, ?_⟩ <;>
                simp only [Sem.setP, Sem.getP] <;>
                first | rfl | omega)
  | pMutate p' w hp hpc =>
      simp only [NUM_PRODUCERS] at hp
      interval_cases p <;>
      · simp only [Sem.getP] at hpc
        refine ⟨?_, ?_, ?_, ?_, ?_⟩ <;> intro hx <;>
          simp only [Sem.getP, Sem.getC] at hx <;>
          first
            | (rw [hpc] at hx; exact absurd hx (by decide))
            | (refine ⟨?_, ?_, ?_, ?_, ?_⟩ <;>
                simp only [Sem.setP, Sem.getP] <;>
                first | rfl | omega)
  | pPostSem p' w hp hpc =>
      simp only [NUM_PRODUCERS] at hp
      interval_cases p <;>
      · simp only [Sem.getP] at hpc
        refine ⟨?_, ?_, ?_, ?_, ?_⟩ <;> intro hx <;>
          simp only [Sem.getP, Sem.getC] at hx <;>
          first
            | (rw [hpc] at hx; exact absurd hx (by decide))
            | (refine ⟨?_, ?_, ?_, ?_, ?_⟩ <;>
                simp only [Sem.setP, Sem.getP] <;>
                first | rfl | omega)
  | pPostFilled p' w hp hpc =>
      simp only [NUM_PRODUCERS] at hp
      interval_cases p <;>
      · simp only [Sem.getP] at hpc
        refine ⟨?_, ?_, ?_, ?_, ?_⟩ <;> intro hx <;>
          simp only [Sem.getP, Sem.getC] at hx <;>
          first
            | (rw [hpc] at hx; exact absurd hx (by decide))
            | (refine ⟨?_, ?_, ?_, ?_, ?_⟩ <;>
                simp only [Sem.setP, Sem.getP] <;>
                first | rfl | omega)

/-- Helper for claim C4: each consumer action is symmetric — first take
a `filled` token, then exclusion, then `take` from the channel, then
release exclusion, then post `empty`. -/
theorem sem_consumer_shape (c : Nat) (s s' : Sem.St)
    (hstep : Sem.Step (.cons c) s s') :
    ((Sem.getC s c).pc = .b0 →
      s'.filled + 1 = s.filled ∧ s'.empty = s.empty ∧
      s'.semaphore = s.semaphore ∧ s'.chan = s.chan ∧
      (Sem.getC s' c).pc = .b1) ∧
    ((Sem.getC s c).pc = .b1 →
      s'.semaphore + 1 = s.semaphore ∧ s'.empty = s.empty ∧
      s'.filled = s.filled ∧ s'.chan = s.chan ∧ (Sem.getC s' c).pc = .b2) ∧
    ((Sem.getC s c).pc = .b2 →
      s'.chan = (Chan.take s.chan).2 ∧
      (Sem.getC s' c).consumedResult = (Chan.take s.chan).1 ∧
      s'.empty = s.empty ∧ s'.filled = s.filled ∧
      s'.semaphore = s.semaphore ∧ (Sem.getC s' c).pc = .b3) ∧
    ((Sem.getC s c).pc = .b3 →
      s'.semaphore = s.semaphore + 1 ∧ s'.empty = s.empty ∧
      s'.filled = s.filled ∧ s'.chan = s.chan ∧ (Sem.getC s' c).pc = .b4) ∧
    ((Sem.getC s c).pc = .b4 →
      s'.empty = s.empty + 1 ∧ s'.filled = s.filled ∧
      s'.semaphore = s.semaphore ∧ s'.chan = s.chan ∧
      (Sem.getC s' c).pc = .b0) := by
  cases hstep with
  | cWaitFilled c' w hc hpc hit hfi =>
      simp only [NUM_CONSUMERS] at hc
      interval_cases c <;>
      · simp only [Sem.getC] at hpc
        refine ⟨?_, ?_, ?_, ?_, ?_⟩ <;> intro hx <;>
          simp only [Sem.getP, Sem.getC] at hx <;>
          first
            | (rw [hpc] at hx; exact absurd hx (by decide))
            | (refine ⟨?_, ?_, ?_, ?_, ?_⟩ <;>
                simp only [Sem.setC, Sem.getC] <;>
                first | rfl | omega)
            | (refine ⟨?_, ?_, ?_, ?_, ?_, ?_⟩ <;>
                simp only [Sem.setC, Sem.getC] <;>
                first | rfl | omega)
  | cWaitSem c' w hc hpc hsem =>
      simp only [NUM_CONSUMERS] at hc
      interval_cases c <;>
      · simp only [Sem.getC] at hpc
        refine ⟨?_, ?_, ?_, ?_, ?_⟩ <;> intro hx <;>
          simp only [Sem.getP, Sem.getC] at hx <;>
          first
            | (rw [hpc] at hx; exact absurd hx (by decide))
            | (refine ⟨?_, ?_, ?_, ?_, ?_⟩ <;>
                simp only [Sem.setC, Sem.getC] <;>
                first | rfl | omega)
            | (refine ⟨?_, ?_, ?_, ?_, ?_, ?_⟩ <;>
                simp only [Sem.setC, Sem.getC] <;>
                first | rfl | omega)
  | cTake c' w hc hpc =>
      simp only [NUM_CONSUMERS] at hc
      interval_cases c <;>
      · simp only [Sem.getC] at hpc
        refine ⟨?_, ?_, ?_, ?_, ?_⟩ <;> intro hx <;>
          simp only [Sem.getP, Sem.getC] at hx <;>
          first
            | (rw [hpc] at hx; exact absurd hx (by decide))
            | (refine ⟨?_, ?_, ?_, ?_, ?_⟩ <;>
                simp only [Sem.setC, Sem.getC] <;>
                first | rfl | omega)
            | (refine ⟨?_, ?_, ?_, ?_, ?_, ?_⟩ <;>
                simp only [Sem.setC, Sem.getC] <;>
                first | rfl | omega)
  | cPostSem c' w hc hpc =>
      simp only [NUM_CONSUMERS] at hc
      interval_cases c <;>
      · simp only [Sem.getC] at hpc
        refine ⟨?_, ?_, ?_, ?_, ?_⟩ <;> intro hx <;>
          simp only [Sem.getP, Sem.getC] at hx <;>
          first
            | (rw [hpc] at hx; exact absurd hx (by decide))
            | (refine ⟨?_, ?_, ?_, ?_, ?_⟩ <;>
                simp only [Sem.setC, Sem.getC] <;>
                first | rfl | omega)
            | (refine ⟨?_, ?_, ?_, ?_, ?_, ?_⟩ <;>
                simp only [Sem.setC, Sem.getC] <;>
                first | rfl | omega)
  | cPostEmpty c' w hc hpc =>
      simp only [NUM_CONSUMERS] at hc
      interval_cases c <;>
      · simp only [Sem.getC] at hpc
        refine ⟨?_, ?_, ?_, ?_, ?_⟩ <;> intro hx <;>
          simp only [Sem.getP, Sem.getC] at hx <;>
          first
            | (rw [hpc] at hx; exact absurd hx (by decide))
            | (refine ⟨?_, ?_, ?_, ?_, ?_⟩ <;>
                simp only [Sem.setC, Sem.getC] <;>
                first | rfl | omega)
            | (refine ⟨?_, ?_, ?_, ?_, ?_, ?_⟩ <;>
                simp only [Sem.setC, Sem.getC] <;>
                first | rfl | omega)

/-- Claim C4: every semaphore-backend enqueue follows exactly the step
sequence wait(empty); wait(semaphore); mutate; post(semaphore);
post(filled), every dequeue the symmetric sequence starting from
`filled` and ending by posting `empty`, and the semaphores are
initialized to capacity, zero and one respectively. -/
theorem c4_semaphore_protocol (p c : Nat) (s s' t t' : Sem.St)
    (hp : Sem.Step (.prod p) s s') (hc : Sem.Step (.cons c) t t') :
    (((Sem.getP s p).pc = .a0 →
      s'.empty + 1 = s.empty ∧ s'.filled = s.filled ∧
      s'.semaphore = s.semaphore ∧ s'.chan = s.chan ∧
      (Sem.getP s' p).pc = .a1) ∧
    ((Sem.getP s p).pc = .a1 →
      s'.semaphore + 1 = s.semaphore ∧ s'.empty = s.empty ∧
      s'.filled = s.filled ∧ s'.chan = s.chan ∧ (Sem.getP s' p).pc = .a2) ∧
    ((Sem.getP s p).pc = .a2 →
      s'.chan = Chan.append s.globalProductionCounter s.chan ∧
      s'.empty = s.empty ∧ s'.filled = s.filled ∧
      s'.semaphore = s.semaphore ∧ (Sem.getP s' p).pc = .a3) ∧
    ((Sem.getP s p).pc = .a3 →
      s'.semaphore = s.semaphore + 1 ∧ s'.empty = s.empty ∧
      s'.filled = s.filled ∧ s'.chan = s.chan ∧ (Sem.getP s' p).pc = .a4) ∧
    ((Sem.getP s p).pc = .a4 →
      s'.filled = s.filled + 1 ∧ s'.empty = s.empty ∧
      s'.semaphore = s.semaphore ∧ s'.chan = s.chan ∧
      (Sem.getP s' p).pc = .a0)) ∧
    (((Sem.getC t c).pc = .b0 →
      t'.filled + 1 = t.filled ∧ t'.empty = t.empty ∧
      t'.semaphore = t.semaphore ∧ t'.chan = t.chan ∧
      (Sem.getC t' c).pc = .b1) ∧
    ((Sem.getC t c).pc = .b1 →
      t'.semaphore + 1 = t.semaphore ∧ t'.empty = t.empty ∧
      t'.filled = t.filled ∧ t'.chan = t.chan ∧ (Sem.getC t' c).pc = .b2) ∧
    ((Sem.getC t c).pc = .b2 →
      t'.chan = (Chan.take t.chan).2 ∧
      (Sem.getC t' c).consumedResult = (Chan.take t.chan).1 ∧
      t'.empty = t.empty ∧ t'.filled = t.filled ∧
      t'.semaphore = t.semaphore ∧ (Sem.getC t' c).pc = .b3) ∧
    ((Sem.getC t c).pc = .b3 →
      t'.semaphore = t.semaphore + 1 ∧ t'.empty = t.empty ∧
      t'.filled = t.filled ∧ t'.chan = t.chan ∧ (Sem.getC t' c).pc = .b4) ∧
    ((Sem.getC t c).pc = .b4 →
      t'.empty = t.empty + 1 ∧ t'.filled = t.filled ∧
      t'.semaphore = t.semaphore ∧ t'.chan = t.chan ∧
      (Sem.getC t' c).pc = .b0)) ∧
    Sem.init.empty = BUFFER_SIZE ∧ Sem.init.filled = 0 ∧
    Sem.init.semaphore = 1 :=
  ⟨sem_producer_shape p s s' hp, sem_consumer_shape c t t' hc, rfl, rfl, rfl⟩

set_option maxRecDepth 1000000 in
/-- Witness for claim C4: producer 0 stepping from the initial state
consumes one `empty` token and moves to the exclusion wait, and the
initial semaphore values are capacity, zero and one. -/
theorem c4_semaphore_protocol_witness :
    (Sem.setP { Sem.init with empty := Sem.init.empty - 1 }
        ⟨.a1, (Sem.getP Sem.init 0).iters⟩ 0).empty + 1 = Sem.init.empty ∧
    Sem.init.empty = BUFFER_SIZE ∧ Sem.init.filled = 0 ∧
    Sem.init.semaphore = 1 := by
  have h := c4_semaphore_protocol 0 0 Sem.init
    (Sem.setP { Sem.init with empty := Sem.init.empty - 1 }
      ⟨.a1, (Sem.getP Sem.init 0).iters⟩ 0)
    Sem.atTakeSt
    (Sem.setC
      { Sem.atTakeSt with
        chan := (Chan.take Sem.atTakeSt.chan).2
        deqCount := Sem.atTakeSt.deqCount + 1 }
      ⟨.b3, (Sem.getC Sem.atTakeSt 0).iters, (Chan.take Sem.atTakeSt.chan).1⟩ 0)
    (Sem.Step.pWaitEmpty 0 Sem.init (by decide) rfl (by decide) (by decide))
    (Sem.Step.cTake 0 Sem.atTakeSt (by decide) (by decide))
  exact ⟨(h.1.1 rfl).1, h.2.2.1, h.2.2.2.1, h.2.2.2.2⟩

/-- Claim C6: in the synchronised readers/writers programs, the
writer-exclusion resource is acquired for the reader cohort only by a
reader holding the reader-count exclusion with the count at 1 (without
changing the count), is released for the cohort only by a reader
holding the reader-count exclusion with the count at 0, every change of
the reader count happens under the reader-count exclusion, and a pure
count increment never touches writer-exclusion. -/
theorem c6_reader_cohort_bookkeeping (l : RW.Lbl) (s s' : RW.St)
    (hr : RW.Reach s) (hst : RW.Step l s s') :
    (s.writerMutex ≠ .rheld → s'.writerMutex = .rheld →
      s.readerMutex = true ∧ s.readCount = 1 ∧ s'.readCount = s.readCount) ∧
    (s.writerMutex = .rheld → s'.writerMutex ≠ .rheld →
      s.readerMutex = true ∧ s.readCount = 0) ∧
    (s'.readCount ≠ s.readCount → s.readerMutex = true) ∧
    (s'.readCount = s.readCount + 1 → s'.writerMutex = s.writerMutex) := by
  have inv := rw_inv hr
  cases hst with
  | wCheckT i u hi hpc hit hsw =>
      simp only [NUM_WRITERS] at hi
      interval_cases i <;>
      · refine ⟨?_, ?_, ?_, ?_⟩ <;> simp only [RW.setW] <;>
          first
            | (intro h1 h2; exact absurd h2 h1)
            | (intro h1 h2; exact absurd h1 h2)
            | (intro h; exact absurd rfl h)
            | (intro h; exact absurd h (by omega))
            | (intro _; trivial)
  | wCheckF i u hi hpc hit hsw =>
      simp only [NUM_WRITERS] at hi
      interval_cases i <;>
      · refine ⟨?_, ?_, ?_, ?_⟩ <;> simp only [RW.setW] <;>
          first
            | (intro h1 h2; exact absurd h2 h1)
            | (intro h1 h2; exact absurd h1 h2)
            | (intro h; exact absurd rfl h)
            | (intro h; exact absurd h (by omega))
            | (intro _; trivial)
  | wFinish i u hi hpc hit =>
      simp only [NUM_WRITERS] at hi
      interval_cases i <;>
      · refine ⟨?_, ?_, ?_, ?_⟩ <;> simp only [RW.setW] <;>
          first
            | (intro h1 h2; exact absurd h2 h1)
            | (intro h1 h2; exact absurd h1 h2)
            | (intro h; exact absurd rfl h)
            | (intro h; exact absurd h (by omega))
            | (intro _; trivial)
  | wLock i u hi hpc hwm =>
      simp only [NUM_WRITERS] at hi
      interval_cases i <;>
      · simp only [RW.getW] at hpc
        refine ⟨?_, ?_, ?_, ?_⟩ <;> simp only [RW.setW] <;>
          first
            | (intro h1 h2; exact absurd h2 h1)
            | (intro h1 h2; exact absurd h1 h2)
            | (intro h; exact absurd rfl h)
            | (intro h; exact absurd h (by omega))
            | (intro _ h2; exact absurd h2 (by decide))
            | (intro h1 _; rw [hwm] at h1; exact absurd h1 (by decide))
  | wWrite0 i u hi hpc =>
      simp only [NUM_WRITERS] at hi
      interval_cases i <;>
      · refine ⟨?_, ?_, ?_, ?_⟩ <;> simp only [RW.setW] <;>
          first
            | (intro h1 h2; exact absurd h2 h1)
            | (intro h1 h2; exact absurd h1 h2)
            | (intro h; exact absurd rfl h)
            | (intro h; exact absurd h (by omega))
            | (intro _; trivial)
  | wWrite1 i u hi hpc =>
      simp only [NUM_WRITERS] at hi
      interval_cases i <;>
      · refine ⟨?_, ?_, ?_, ?_⟩ <;> simp only [RW.setW] <;>
          first
            | (intro h1 h2; exact absurd h2 h1)
            | (intro h1 h2; exact absurd h1 h2)
            | (intro h; exact absurd rfl h)
            | (intro h; exact absurd h (by omega))
            | (intro _; trivial)
  | wUnlock i u hi hpc =>
      simp only [NUM_WRITERS] at hi
      interval_cases i <;>
      · simp only [RW.getW] at hpc
        refine ⟨?_, ?_, ?_, ?_⟩ <;> simp only [RW.setW] <;>
          first
            | (intro h; exact absurd rfl h)
            | (intro h; exact absurd h (by omega))
            | (intro _ h2; exact absurd h2 (by decide))
            | (intro h1 _
               first
                 | (have e := inv.csA (by rw [hpc] <;> decide)
                    rw [h1] at e
                    exact absurd e (by decide))
                 | (have e := inv.csB (by rw [hpc] <;> decide)
                    rw [h1] at e
                    exact absurd e (by decide))
                 | (have e := inv.csC (by rw [hpc] <;> decide)
                    rw [h1] at e
                    exact absurd e (by decide)))
  | rCheckT i u hi hpc hsw =>
      simp only [NUM_READERS] at hi
      interval_cases i <;>
      · refine ⟨?_, ?_, ?_, ?_⟩ <;> simp only [RW.setR] <;>
          first
            | (intro h1 h2; exact absurd h2 h1)
            | (intro h1 h2; exact absurd h1 h2)
            | (intro h; exact absurd rfl h)
            | (intro h; exact absurd h (by omega))
            | (intro _; trivial)
  | rCheckF i u hi hpc hsw =>
      simp only [NUM_READERS] at hi
      interval_cases i <;>
      · refine ⟨?_, ?_, ?_, ?_⟩ <;> simp only [RW.setR] <;>
          first
            | (intro h1 h2; exact absurd h2 h1)
            | (intro h1 h2; exact absurd h1 h2)
            | (intro h; exact absurd rfl h)
            | (intro h; exact absurd h (by omega))
            | (intro _; trivial)
  | rLock1 i u hi hpc hrm =>
      simp only [NUM_READERS] at hi
      interval_cases i <;>
      · refine ⟨?_, ?_, ?_, ?_⟩ <;> simp only [RW.setR] <;>
          first
            | (intro h1 h2; exact absurd h2 h1)
            | (intro h1 h2; exact absurd h1 h2)
            | (intro h; exact absurd rfl h)
            | (intro h; exact absurd h (by omega))
            | (intro _; trivial)
  | rInc i u hi hpc =>
      simp only [NUM_READERS] at hi
      interval_cases i <;>
      · simp only [RW.getR] at hpc
        refine ⟨?_, ?_, ?_, ?_⟩ <;> simp only [RW.setR] <;>
          first
            | (intro h1 h2; exact absurd h2 h1)
            | (intro h1 h2; exact absurd h1 h2)
            | (intro h; exact absurd h (by omega))
            | (intro _; trivial)
            | (intro _
               rcases hb : s.readerMutex with _ | _
               · exfalso
                 have h0 := inv.rm0 hb
                 simp only [RW.cntRM, RW.rmInd, hpc] at h0
                 omega
               · trivial)
  | rFirst i u hi hpc hone hwm =>
      simp only [NUM_READERS] at hi
      interval_cases i <;>
      · simp only [RW.getR] at hpc
        refine ⟨?_, ?_, ?_, ?_⟩ <;> simp only [RW.setR] <;>
          first
            | (intro h; exact absurd rfl h)
            | (intro h; exact absurd h (by omega))
            | (intro h1 _; rw [hwm] at h1; exact absurd h1 (by decide))
            | (intro _ _
               refine ⟨?_, hone, by trivial⟩
               rcases hb : s.readerMutex with _ | _
               · exfalso
                 have h0 := inv.rm0 hb
                 simp only [RW.cntRM, RW.rmInd, hpc] at h0
                 omega
               · trivial)
  | rNotFirst i u hi hpc hone =>
      simp only [NUM_READERS] at hi
      interval_cases i <;>
      · refine ⟨?_, ?_, ?_, ?_⟩ <;> simp only [RW.setR] <;>
          first
            | (intro h1 h2; exact absurd h2 h1)
            | (intro h1 h2; exact absurd h1 h2)
            | (intro h; exact absurd rfl h)
            | (intro h; exact absurd h (by omega))
            | (intro _; trivial)
  | rUnlock1 i u hi hpc =>
      simp only [NUM_READERS] at hi
      interval_cases i <;>
      · refine ⟨?_, ?_, ?_, ?_⟩ <;> simp only [RW.setR] <;>
          first
            | (intro h1 h2; exact absurd h2 h1)
            | (intro h1 h2; exact absurd h1 h2)
            | (intro h; exact absurd rfl h)
            | (intro h; exact absurd h (by omega))
            | (intro _; trivial)
  | rRead0 i u hi hpc =>
      simp only [NUM_READERS] at hi
      interval_cases i <;>
      · refine ⟨?_, ?_, ?_, ?_⟩ <;> simp only [RW.setR] <;>
          first
            | (intro h1 h2; exact absurd h2 h1)
            | (intro h1 h2; exact absurd h1 h2)
            | (intro h; exact absurd rfl h)
            | (intro h; exact absurd h (by omega))
            | (intro _; trivial)
  | rRead1 i u hi hpc =>
      simp only [NUM_READERS] at hi
      interval_cases i <;>
      · refine ⟨?_, ?_, ?_, ?_⟩ <;> simp only [RW.setR] <;>
          first
            | (intro h1 h2; exact absurd h2 h1)
            | (intro h1 h2; exact absurd h1 h2)
            | (intro h; exact absurd rfl h)
            | (intro h; exact absurd h (by omega))
            | (intro _; trivial)
  | rLock2 i u hi hpc hrm =>
      simp only [NUM_READERS] at hi
      interval_cases i <;>
      · refine ⟨?_, ?_, ?_, ?_⟩ <;> simp only [RW.setR] <;>
          first
            | (intro h1 h2; exact absurd h2 h1)
            | (intro h1 h2; exact absurd h1 h2)
            | (intro h; exact absurd rfl h)
            | (intro h; exact absurd h (by omega))
            | (intro _; trivial)
  | rDec i u hi hpc =>
      simp only [NUM_READERS] at hi
      interval_cases i <;>
      · simp only [RW.getR] at hpc
        refine ⟨?_, ?_, ?_, ?_⟩ <;> simp only [RW.setR] <;>
          first
            | (intro h1 h2; exact absurd h2 h1)
            | (intro h1 h2; exact absurd h1 h2)
            | (intro h; exact absurd h (by omega))
            | (intro _
               rcases hb : s.readerMutex with _ | _
               · exfalso
                 have h0 := inv.rm0 hb
                 simp only [RW.cntRM, RW.rmInd, hpc] at h0
                 omega
               · trivial)
  | rLast i u hi hpc hzero =>
      simp only [NUM_READERS] at hi
      interval_cases i <;>
      · simp only [RW.getR] at hpc
        refine ⟨?_, ?_, ?_, ?_⟩ <;> simp only [RW.setR] <;>
          first
            | (intro h; exact absurd rfl h)
            | (intro h; exact absurd h (by omega))
            | (intro _ h2; exact absurd h2 (by decide))
            | (intro _ _
               refine ⟨?_, hzero⟩
               rcases hb : s.readerMutex with _ | _
               · exfalso
                 have h0 := inv.rm0 hb
                 simp only [RW.cntRM, RW.rmInd, hpc] at h0
                 omega
               · trivial)
  | rNotLast i u hi hpc hzero =>
      simp only [NUM_READERS] at hi
      interval_cases i <;>
      · refine ⟨?_, ?_, ?_, ?_⟩ <;> simp only [RW.setR] <;>
          first
            | (intro h1 h2; exact absurd h2 h1)
            | (intro h1 h2; exact absurd h1 h2)
            | (intro h; exact absurd rfl h)
            | (intro h; exact absurd h (by omega))
            | (intro _; trivial)
  | rUnlock2 i u hi hpc =>
      simp only [NUM_READERS] at hi
      interval_cases i <;>
      · refine ⟨?_, ?_, ?_, ?_⟩ <;> simp only [RW.setR] <;>
          first
            | (intro h1 h2; exact absurd h2 h1)
            | (intro h1 h2; exact absurd h1 h2)
            | (intro h; exact absurd rfl h)
            | (intro h; exact absurd h (by omega))
            | (intro _; trivial)
  | flip u hwa hwb hwc =>
      exact ⟨fun h1 h2 => absurd h2 h1, fun h1 h2 => absurd h1 h2,
        fun h => absurd rfl h,
        fun h => absurd (show s.readCount = s.readCount + 1 from h) (by omega)⟩

/-- Witness for claim C6: in the three-step trace state where reader 0
holds the reader-count exclusion with count 1, the `rFirst` acquisition
step fires, and the theorem yields that the pre-state indeed has the
exclusion held and count 1. -/
theorem c6_reader_cohort_bookkeeping_witness :
    RW.rwS3.readerMutex = true ∧ RW.rwS3.readCount = 1 ∧
    RW.rwS4.readCount = RW.rwS3.readCount := by
  have h := c6_reader_cohort_bookkeeping (RW.Lbl.r 0) RW.rwS3 RW.rwS4 rw_reach3
    (RW.Step.rFirst 0 RW.rwS3 (by decide) rfl rfl rfl)
  exact h.1 (by decide) (by decide)

/-- Witness for claim C8: with every primitive call succeeding the
monitor `main` exits 0, and the semaphore `main` result is unchanged
when all three `sem_init` calls fail. -/
theorem c8_exit_status_witness :
    monitorMain theConfig allOkMonPrims = 0 ∧
    semMain theConfig
        { allOkSemPrims with semEmptyInitOk := false, semFilledInitOk := false,
                             semSemaphoreInitOk := false } =
      semMain theConfig allOkSemPrims :=
  ⟨(c8_exit_status allOkMonPrims allOkSemPrims).1.mpr
      ⟨rfl, rfl, rfl, rfl, rfl, rfl, rfl⟩,
   (c8_exit_status allOkMonPrims allOkSemPrims).2.2.2 false false false⟩
